import Mathlib

/-!
Verification of the NanoClaw group-scoped orchestration engine.

Shallow embedding of the message-delivery core of `src/index.ts` (the
Discord revision) and of the chunking logic of `src/discord.ts`.  Pure
functions are translated directly; the asynchronous subprocess boundary
(`runContainerAgent`) is abstracted as an `AttemptOutcome` parameter
listing the streamed events and the final status, exactly the data that
`processGroupMessages` consumes.  The database helpers (`db.ts`) and the
`GroupQueue` (`group-queue.ts`) are not part of the source snapshot; the
definitions that stand in for them are marked `Modelled from the spec:`
and follow the specification text.
-/

set_option maxHeartbeats 1000000

/-- A stored message row, shape taken from the fields `index.ts` reads on
`NewMessage` values: `id`, `chat_jid`, `sender_name`, `content`,
`timestamp` (ISO strings, compared lexicographically as the store does). -/
structure NewMessage where
  id : String
  chat_jid : String
  sender_name : String
  content : String
  timestamp : String
deriving DecidableEq

/-- A conversation registration (`RegisteredGroup` in `types.ts`, as used by
`index.ts`): display name, identity folder, trigger token, and the optional
`requiresTrigger` flag where only an explicit `false` disables the trigger
requirement (`group.requiresTrigger !== false`). -/
structure RegisteredGroup where
  name : String
  folder : String
  trigger : String
  requiresTrigger : Option Bool
deriving DecidableEq

/-- One parsed streamed event from the agent subprocess
(`ContainerOutput` in `container-runner.ts` as consumed by `index.ts`):
`result` is the relayable text (`none` models a JSON `null` liveness
marker), `status` is the optional `"ok"`/`"error"` tag. -/
structure ContainerOutput where
  result : Option String
  newSessionId : Option String
  status : Option String
deriving DecidableEq

/-- JavaScript truthiness of an optional string field: `null`/`undefined`
and the empty string are falsy. -/
def truthy : Option String → Bool
  | some s => s != ""
  | none => false

/-- Association-list lookup mirroring `registeredGroups[chatJid]` on the
in-memory record object. -/
def lookupGroup (regs : List (String × RegisteredGroup)) (jid : String) :
    Option RegisteredGroup :=
  (regs.find? (fun p => p.1 == jid)).map (fun p => p.2)

/-- Pointwise update of a cursor map, mirroring
`lastAgentTimestamp[chatJid] = v` (assigning `none` models assigning
`undefined`, which every reader treats like an absent key). -/
def updateCur (cur : String → Option String) (c : String) (v : Option String) :
    String → Option String :=
  fun x => if x = c then v else cur x

/-- The value a reader observes for a cursor entry:
`lastAgentTimestamp[chatJid] || ''`. -/
def optVal (o : Option String) : String := o.getD ""

/-- Lexicographic comparison of character lists, the order in which the
store compares ISO timestamp strings (`timestamp > ?` on text values). -/
def lexLt : List Char → List Char → Bool
  | _, [] => false
  | [], _ :: _ => true
  | a :: as, b :: bs => if a = b then lexLt as bs else decide (a < b)

/-- Strict lexicographic order on strings (timestamp comparison). -/
def strLt (a b : String) : Bool := lexLt a.data b.data

/-- Reflexive lexicographic order on strings. -/
def strLe (a b : String) : Bool := strLt a b || a == b

/-- Whitespace as removed by `trim`/`trimStart` (space, tab, line feed,
carriage return), the `Char.isWhitespace` predicate. -/
def isWsChar (c : Char) : Bool := c.isWhitespace

/-- `s.trim()` at the character level: drop whitespace from both ends.
(Reimplemented over `List Char` so that proofs can evaluate it.) -/
def trimChars (l : List Char) : List Char :=
  ((l.dropWhile isWsChar).reverse.dropWhile isWsChar).reverse

/-- `s.trim().toLowerCase()` at the character level. -/
def trimLower (s : String) : String :=
  String.mk ((trimChars s.data).map Char.toLower)

/-- JS word character (`\w` is `[A-Za-z0-9_]`); `Char.isAlphanum` is the
matching ASCII test. -/
def isWordChar (c : Char) : Bool := c.isAlphanum || c == '_'

/-- Whether the regex word boundary `\b` holds at position `n` of `l`:
exactly one of the two surrounding positions holds a word character. -/
def hasWordBoundaryAt (l : List Char) (n : Nat) : Bool :=
  let left := if n = 0 then false else
    match l.get? (n - 1) with
    | some c => isWordChar c
    | none => false
  let right :=
    match l.get? n with
    | some c => isWordChar c
    | none => false
  left != right

/-- The trigger test of `index.ts`:
`new RegExp('^' + escapeRegex(group.trigger) + '\\b', 'i').test(m.content.trim())`.
`escapeRegex` makes the trigger literal, so this is a case-insensitive
anchored prefix match followed by a word boundary. -/
def matchesTrigger (trigger content : String) : Bool :=
  let t := (trimChars content.data).map Char.toLower
  let p := trigger.data.map Char.toLower
  p.isPrefixOf t && hasWordBoundaryAt t p.length

/-- `escapeXml` of `index.ts` escapes `&`, `<`, `>`, `"`.  The source
chains four global replaces in that order, which is equivalent to this
single character-wise map because the replacements never re-escape the
ampersands they introduce. -/
def escapeXmlChar (c : Char) : String :=
  if c == '&' then "&amp;"
  else if c == '<' then "&lt;"
  else if c == '>' then "&gt;"
  else if c == '"' then "&quot;"
  else String.mk [c]

/-- `escapeXml` from `index.ts`. -/
def escapeXml (s : String) : String :=
  String.join (s.data.map escapeXmlChar)

/-- One `<message .../>` line of the prompt, from `formatMessages`. -/
def formatMessageLine (m : NewMessage) : String :=
  "<message sender=\"" ++ escapeXml m.sender_name ++ "\" time=\"" ++
    m.timestamp ++ "\">" ++ escapeXml m.content ++ "</message>"

/-- `formatMessages` from `index.ts`: the XML-ish prompt covering a batch. -/
def formatMessages (messages : List NewMessage) : String :=
  "<messages>\n" ++ String.intercalate "\n" (messages.map formatMessageLine) ++
    "\n</messages>"

/-- Characters of the opening marker of an internal-reasoning block. -/
def internalOpen : List Char := "<internal>".data

/-- Characters of the closing marker of an internal-reasoning block. -/
def internalClose : List Char := "</internal>".data

/-- Scan forward for the first occurrence of `</internal>` and return the
remainder after it, or `none` when the block is unterminated (the
non-greedy `[\s\S]*?` needs a closing marker to match). -/
def dropAfterClose : List Char → Option (List Char)
  | [] => none
  | c :: rest =>
    if internalClose.isPrefixOf (c :: rest) then
      some ((c :: rest).drop internalClose.length)
    else
      dropAfterClose rest

/-- Fuel-indexed scan implementing
`raw.replace(/<internal>[\s\S]*?<\/internal>/g, '')`: at each position a
complete `<internal>...</internal>` block (shortest closing) is removed,
otherwise the character is kept.  Each step consumes at least one
character, so fuel `length + 1` is always sufficient. -/
def stripInternalGo : Nat → List Char → List Char
  | 0, l => l
  | _ + 1, [] => []
  | fuel + 1, c :: rest =>
    if internalOpen.isPrefixOf (c :: rest) then
      match dropAfterClose ((c :: rest).drop internalOpen.length) with
      | some l' => stripInternalGo fuel l'
      | none => c :: stripInternalGo fuel rest
    else
      c :: stripInternalGo fuel rest

/-- Removal of `<internal>...</internal>` blocks from agent output. -/
def stripInternal (s : String) : String :=
  String.mk (stripInternalGo (s.data.length + 1) s.data)

/-- The user-visible text derived from a raw streamed result:
`raw.replace(/<internal>...<\/internal>/g, '').trim()`. -/
def renderText (raw : String) : String :=
  String.mk (trimChars (stripInternal raw).data)

/-- Effect of one streamed event inside the output callback of
`processGroupMessages` (`index.ts` lines 256-274): `sent` is the text
relayed to the platform when the rendered text is non-empty, `resetIdle`
records whether `resetIdleTimer()` ran (it runs exactly when
`result.result` is truthy), `markError` whether `hadError` is set. -/
structure StreamEffect where
  sent : Option String
  resetIdle : Bool
  markError : Bool
deriving DecidableEq

/-- The streaming output callback body of `processGroupMessages`, for one
event.  The source model: `result.result` is a string (an object value is
first stringified, which still yields a non-empty string). -/
def streamEventEffect (assistant : String) (e : ContainerOutput) : StreamEffect :=
  match e.result with
  | some raw =>
    if raw != "" then
      let text := renderText raw
      { sent := if text != "" then some (assistant ++ ": " ++ text) else none
        resetIdle := true
        markError := e.status == some "error" }
    else
      { sent := none, resetIdle := false, markError := e.status == some "error" }
  | none => { sent := none, resetIdle := false, markError := e.status == some "error" }

/-- The data `processGroupMessages` receives back from one agent dispatch:
the streamed events in order and `runAgent`'s final verdict
(`"success"` or `"error"`). -/
structure AttemptOutcome where
  events : List ContainerOutput
  finalStatus : String
deriving DecidableEq

/-- `outputSentToUser` after the stream: some event relayed a non-empty
chunk to the platform. -/
def outputRelayed (assistant : String) (att : AttemptOutcome) : Bool :=
  att.events.any (fun e => (streamEventEffect assistant e).sent.isSome)

/-- The failure condition `output === 'error' || hadError` of
`processGroupMessages`. -/
def attemptFailed (att : AttemptOutcome) : Bool :=
  att.finalStatus == "error" ||
    att.events.any (fun e => e.status == some "error")

/-- The texts relayed to the platform during streaming, in order. -/
def relayedTexts (assistant : String) (att : AttemptOutcome) : List String :=
  att.events.filterMap (fun e => (streamEventEffect assistant e).sent)

/-- Modelled from the spec: `getMessagesSince` of the missing `db.ts` —
"unseen messages beyond their persisted `lastAgentTimestamp`", i.e. the
stored messages of the conversation with timestamp strictly after the
cursor, excluding messages whose sender is the assistant (the from-agent
origin flag of section 3 of the spec). -/
def getMessagesSince (store : List NewMessage) (chatJid since assistant : String) :
    List NewMessage :=
  store.filter (fun m =>
    m.chat_jid == chatJid && strLt since m.timestamp &&
      m.sender_name != assistant)

/-- Result of one `processGroupMessages` run: the cursor map after the
run, the boolean returned to the `GroupQueue`, how many agent dispatches
were performed (0 or 1), the formatted prompt handed to the runner (when
dispatched), and the texts sent to the platform. -/
structure PGMResult where
  lastAgentTimestamp : String → Option String
  returned : Bool
  dispatchCount : Nat
  prompt : Option String
  relayed : List String

/-- The notice sent by the direct `!sync` command branch. -/
def syncNotice : String :=
  "🔄 Sync triggered — sansan-knowledge will update shortly."

/-- `processGroupMessages` from `index.ts` (lines 188-299) as a pure
function of the state it reads and of the dispatch outcome.  Branch for
branch: missing registration and empty batch return `true`; the `!sync`
command advances the cursor directly; a required-but-absent trigger
returns `true` leaving the cursor alone; otherwise one dispatch happens
and, on failure, the cursor is rolled back to `previousCursor` unless
output was relayed (in which case the function merely returns `true`),
while success advances it to `targetCursor`. -/
def processGroupMessages (assistant mainFolder : String)
    (registeredGroups : List (String × RegisteredGroup))
    (store : List NewMessage)
    (lastAgentTimestamp : String → Option String)
    (chatJid : String) (attempt : AttemptOutcome) : PGMResult :=
  match lookupGroup registeredGroups chatJid with
  | none => ⟨lastAgentTimestamp, true, 0, none, []⟩
  | some group =>
    let isMainGroup := group.folder == mainFolder
    let sinceTimestamp := optVal (lastAgentTimestamp chatJid)
    let missedMessages := getMessagesSince store chatJid sinceTimestamp assistant
    match missedMessages.getLast? with
    | none => ⟨lastAgentTimestamp, true, 0, none, []⟩
    | some lastMsg =>
      if trimLower lastMsg.content == "!sync" then
        ⟨updateCur lastAgentTimestamp chatJid (some lastMsg.timestamp),
          true, 0, none, [syncNotice]⟩
      else if !isMainGroup && group.requiresTrigger != some false &&
          !(missedMessages.any (fun m => matchesTrigger group.trigger m.content)) then
        ⟨lastAgentTimestamp, true, 0, none, []⟩
      else
        let prompt := formatMessages missedMessages
        let previousCursor := lastAgentTimestamp chatJid
        let targetCursor := lastMsg.timestamp
        let sent := relayedTexts assistant attempt
        if attemptFailed attempt then
          if outputRelayed assistant attempt then
            ⟨lastAgentTimestamp, true, 1, some prompt, sent⟩
          else
            ⟨updateCur lastAgentTimestamp chatJid previousCursor,
              false, 1, some prompt, sent⟩
        else
          ⟨updateCur lastAgentTimestamp chatJid (some targetCursor),
            true, 1, some prompt, sent⟩

/-- Modelled from the spec: `getNewMessages` of the missing `db.ts` — the
polling query of `startMessageLoop`: all stored messages of registered
conversations strictly after the global observe cursor, excluding
assistant messages, together with the new observe cursor (the timestamp
of the last returned message; the store is append-only in timestamp
order, so the last row is the maximum). -/
def getNewMessages (store : List NewMessage) (jids : List String)
    (since assistant : String) : List NewMessage × String :=
  let msgs := store.filter (fun m =>
    jids.contains m.chat_jid && strLt since m.timestamp &&
      m.sender_name != assistant)
  (msgs, (msgs.getLast?).elim since (fun m => m.timestamp))

/-- One in-flight agent dispatch: the conversation, the cursor value
captured as `previousCursor` before the attempt, and the `targetCursor`
(timestamp of the last message of the dispatched batch). -/
structure Dispatch where
  chatJid : String
  previousCursor : Option String
  targetCursor : String
deriving DecidableEq

/-- The orchestration state: registrations, the append-only message
store, the global observe cursor `lastTimestamp`, the per-conversation
agent cursors `lastAgentTimestamp`, and the in-flight dispatches (the
`GroupQueue` keeps at most one per conversation). -/
structure SysState where
  registeredGroups : List (String × RegisteredGroup)
  store : List NewMessage
  lastTimestamp : String
  lastAgentTimestamp : String → Option String
  active : List Dispatch

/-- The observed agent-cursor value for a conversation
(`lastAgentTimestamp[c] || ''`). -/
def cursorVal (s : SysState) (c : String) : String :=
  optVal (s.lastAgentTimestamp c)

/-- The registered conversation ids, `Object.keys(registeredGroups)`. -/
def regKeys (s : SysState) : List String :=
  s.registeredGroups.map (fun p => p.1)

/-- The unseen batch of a conversation:
`getMessagesSince(chatJid, lastAgentTimestamp[chatJid] || '', ASSISTANT_NAME)`. -/
def pendingFor (assistant : String) (s : SysState) (c : String) : List NewMessage :=
  getMessagesSince s.store c (cursorVal s c) assistant

/-- Modelled from the spec: whether the `GroupQueue` (missing
`group-queue.ts`) holds a live agent process for the conversation —
"a map from conversation id to at most one live handle". -/
def hasActive (s : SysState) (c : String) : Bool :=
  s.active.any (fun d => d.chatJid == c)

/-- The messages one polling-loop iteration observes. -/
def pollMsgs (assistant : String) (s : SysState) : List NewMessage :=
  (getNewMessages s.store (regKeys s) s.lastTimestamp assistant).1

/-- The observe cursor after one polling-loop iteration. -/
def pollNewTs (assistant : String) (s : SysState) : String :=
  (getNewMessages s.store (regKeys s) s.lastTimestamp assistant).2

/-- First-occurrence deduplication of conversation ids, the iteration
order of the `messagesByGroup` map built in `startMessageLoop`. -/
def dedupKeys : List String → List String
  | [] => []
  | k :: ks => k :: (dedupKeys ks).filter (fun x => x ≠ k)

/-- The per-conversation grouping `messagesByGroup` of the polling loop. -/
def groupPairs (msgs : List NewMessage) : List (String × List NewMessage) :=
  (dedupKeys (msgs.map (fun m => m.chat_jid))).map
    (fun c => (c, msgs.filter (fun m => m.chat_jid == c)))

/-- The timestamp of the last message of a batch. -/
def lastTs (l : List NewMessage) : String :=
  (l.getLast?).elim "" (fun m => m.timestamp)

/-- The trimmed lowercased content of the last message of a batch
(`lastMsg.content.trim().toLowerCase()`). -/
def lastContent (l : List NewMessage) : String :=
  trimLower ((l.getLast?).elim "" (fun m => m.content))

/-- The per-conversation body of one polling-loop iteration
(`startMessageLoop`, lines 877-919): skip unregistered conversations and
trigger-less batches; otherwise pull everything since the agent cursor
(falling back to the observed batch when nothing is pending), and when a
container is active pipe the prompt in and advance the agent cursor to
the last piped timestamp; with no active container the conversation is
only enqueued for a fresh check (no state change here). -/
def pollChat (assistant mainFolder : String) (st : SysState)
    (c : String) (gm : List NewMessage) : SysState :=
  match lookupGroup st.registeredGroups c with
  | none => st
  | some group =>
    if gm.isEmpty then st
    else
      let needsTrigger := group.folder != mainFolder &&
        group.requiresTrigger != some false
      if needsTrigger && !(gm.any (fun m => matchesTrigger group.trigger m.content)) then
        st
      else
        let allPending := pendingFor assistant st c
        let messagesToSend := if allPending.isEmpty then gm else allPending
        if hasActive st c then
          { st with lastAgentTimestamp :=
              updateCur st.lastAgentTimestamp c (some (lastTs messagesToSend)) }
        else
          st

/-- The `for (const [chatJid, groupMessages] of messagesByGroup)` loop. -/
def pollLoop (assistant mainFolder : String) (st : SysState)
    (pairs : List (String × List NewMessage)) : SysState :=
  pairs.foldl (fun s p => pollChat assistant mainFolder s p.1 p.2) st

/-- The full effect of one polling-loop iteration that found new
messages: advance `lastTimestamp` first (the code saves it before
dispatching), then run the per-conversation loop. -/
def pollNext (assistant mainFolder : String) (s : SysState) : SysState :=
  pollLoop assistant mainFolder
    { s with lastTimestamp := pollNewTs assistant s }
    (groupPairs (pollMsgs assistant s))

/-- Labels naming the atomic transitions of the engine. -/
inductive StepLabel where
  | storeMsg (m : NewMessage)
  | poll
  | beginDispatch (c : String)
  | resolveOk (c : String)
  | resolveFailNoOutput (c : String)
  | resolveFailAfterOutput (c : String)
  | syncCmd (c : String)
  | registerStep (jid : String) (g : RegisteredGroup)
deriving DecidableEq

/-- `setRegisteredGroup`: replace or append a registration. -/
def setRegistered (regs : List (String × RegisteredGroup))
    (jid : String) (g : RegisteredGroup) : List (String × RegisteredGroup) :=
  if (regs.find? (fun p => p.1 == jid)).isSome then
    regs.map (fun p => if p.1 == jid then (jid, g) else p)
  else
    regs ++ [(jid, g)]

/-- The transition relation of the engine.  Each constructor is one
atomic event of the event loop: storing an inbound message
(`handleDiscordMessage` / `storeMessage`; the store is append-only with
strictly increasing non-empty timestamps), one polling iteration, the
start of a dispatch (`processGroupMessages` up to `runAgent`, run by the
`GroupQueue` only when no process is live for the conversation), the
three resolution outcomes of a dispatch (`index.ts` lines 279-298), the
direct `!sync` command branch, and a registration update. -/
inductive Step (assistant mainFolder : String) :
    StepLabel → SysState → SysState → Prop where
  | storeMsg (s : SysState) (m : NewMessage)
      (hgt : ∀ m' ∈ s.store, strLt m'.timestamp m.timestamp = true)
      (hpos : strLt "" m.timestamp = true) :
      Step assistant mainFolder (.storeMsg m) s { s with store := s.store ++ [m] }
  | poll (s : SysState) (hne : pollMsgs assistant s ≠ []) :
      Step assistant mainFolder .poll s (pollNext assistant mainFolder s)
  | beginDispatch (s : SysState) (c : String) (g : RegisteredGroup)
      (hg : lookupGroup s.registeredGroups c = some g)
      (hact : hasActive s c = false)
      (hne : pendingFor assistant s c ≠ [])
      (hsync : lastContent (pendingFor assistant s c) ≠ "!sync")
      (htrig : g.folder = mainFolder ∨ g.requiresTrigger = some false ∨
        (pendingFor assistant s c).any
          (fun m => matchesTrigger g.trigger m.content) = true) :
      Step assistant mainFolder (.beginDispatch c) s
        { s with active := s.active ++
            [⟨c, s.lastAgentTimestamp c, lastTs (pendingFor assistant s c)⟩] }
  | resolveOk (s : SysState) (d : Dispatch) (hd : d ∈ s.active) :
      Step assistant mainFolder (.resolveOk d.chatJid) s
        { s with
          lastAgentTimestamp :=
            updateCur s.lastAgentTimestamp d.chatJid (some d.targetCursor)
          active := s.active.filter (fun d' => d'.chatJid != d.chatJid) }
  | resolveFailNoOutput (s : SysState) (d : Dispatch) (hd : d ∈ s.active) :
      Step assistant mainFolder (.resolveFailNoOutput d.chatJid) s
        { s with
          lastAgentTimestamp :=
            updateCur s.lastAgentTimestamp d.chatJid d.previousCursor
          active := s.active.filter (fun d' => d'.chatJid != d.chatJid) }
  | resolveFailAfterOutput (s : SysState) (d : Dispatch) (hd : d ∈ s.active) :
      Step assistant mainFolder (.resolveFailAfterOutput d.chatJid) s
        { s with active := s.active.filter (fun d' => d'.chatJid != d.chatJid) }
  | syncCmd (s : SysState) (c : String) (g : RegisteredGroup)
      (hg : lookupGroup s.registeredGroups c = some g)
      (hact : hasActive s c = false)
      (hne : pendingFor assistant s c ≠ [])
      (hsync : lastContent (pendingFor assistant s c) = "!sync") :
      Step assistant mainFolder (.syncCmd c) s
        { s with lastAgentTimestamp := updateCur s.lastAgentTimestamp c (some (lastTs (pendingFor assistant s c))) }
  | registerStep (s : SysState) (jid : String) (g : RegisteredGroup) :
      Step assistant mainFolder (.registerStep jid g) s
        { s with registeredGroups := setRegistered s.registeredGroups jid g }

/-- Some transition, any label. -/
def StepAny (assistant mainFolder : String) (s s' : SysState) : Prop :=
  ∃ l, Step assistant mainFolder l s s'

/-- The state after `loadState` on a fresh deployment: persisted
registrations, empty store and cursors. -/
def initState (regs : List (String × RegisteredGroup)) : SysState :=
  ⟨regs, [], "", fun _ => none, []⟩

/-- Reachability from a start state through engine transitions. -/
def Reachable (assistant mainFolder : String) (init s : SysState) : Prop :=
  Relation.ReflTransGen (StepAny assistant mainFolder) init s

/-- `recoverPendingMessages` from `index.ts` (lines 932-944) as the list
of conversations for which a message check is enqueued with the
`GroupQueue` (one `enqueueMessageCheck` call per emitted element, in
registration order). -/
def recoverPendingMessages (assistant : String)
    (regs : List (String × RegisteredGroup))
    (lastAgentTimestamp : String → Option String)
    (store : List NewMessage) : List String :=
  regs.filterMap (fun p =>
    if (getMessagesSince store p.1 (optVal (lastAgentTimestamp p.1)) assistant).isEmpty
    then none
    else some p.1)

/-- A scheduled-task row as created and consulted by `index.ts`
(`createTask` / `getTaskById` fields). -/
structure TaskRec where
  id : String
  group_folder : String
  chat_jid : String
  prompt : String
  schedule_type : String
  schedule_value : String
  context_mode : String
  next_run : Option String
  status : String
  created_at : String
deriving DecidableEq

/-- `getTaskById` over the task table. -/
def getTaskById (tasks : List TaskRec) (id : String) : Option TaskRec :=
  tasks.find? (fun t => t.id == id)

/-- The parsed JSON payload of an IPC command file, fields as typed in
`processTaskIpc` and read by the message handler of `startIpcWatcher`. -/
structure IpcData where
  type : String
  taskId : Option String := none
  prompt : Option String := none
  schedule_type : Option String := none
  schedule_value : Option String := none
  context_mode : Option String := none
  chatJid : Option String := none
  targetJid : Option String := none
  jid : Option String := none
  name : Option String := none
  folder : Option String := none
  trigger : Option String := none
  text : Option String := none
  messageId : Option String := none
  emoji : Option String := none
deriving DecidableEq

/-- The host-side effects an IPC command can request. -/
inductive IpcAction where
  | sendMsg (chatJid text : String)
  | react (chatJid messageId emoji : String)
  | createTask (t : TaskRec)
  | pauseTask (taskId : String)
  | resumeTask (taskId : String)
  | cancelTask (taskId : String)
  | registerGroupAction (jid : String) (g : RegisteredGroup)
  | refreshGroups
  | syncKnowledge
deriving DecidableEq

/-- The handler for one file of a group's `messages/` IPC directory
(`startIpcWatcher`, lines 466-510): `message` and `reaction` requests are
executed only when the source is the main group or the target
conversation's registration folder equals the source group folder;
otherwise they are logged as unauthorized and blocked. -/
def processMessageIpc (assistant : String)
    (regs : List (String × RegisteredGroup))
    (data : IpcData) (sourceGroup : String) (isMain : Bool) : List IpcAction :=
  if data.type == "message" && truthy data.chatJid && truthy data.text then
    let cj := (data.chatJid).getD ""
    let authorized :=
      isMain ||
        (match lookupGroup regs cj with
          | some tg => tg.folder == sourceGroup
          | none => false)
    if authorized then [.sendMsg cj (assistant ++ ": " ++ (data.text).getD "")]
    else []
  else if data.type == "reaction" && truthy data.chatJid && truthy data.messageId
      && truthy data.emoji then
    let cj := (data.chatJid).getD ""
    let authorized :=
      isMain ||
        (match lookupGroup regs cj with
          | some tg => tg.folder == sourceGroup
          | none => false)
    if authorized then
      [.react cj ((data.messageId).getD "") ((data.emoji).getD "")]
    else []
  else []

/-- Outcome of evaluating a schedule descriptor, abstracting the external
`cron-parser` library and `Date` arithmetic used by `processTaskIpc`:
`none` means the descriptor was rejected (invalid cron expression,
non-positive interval, unparseable timestamp) and the branch `break`s,
`some nr` is the computed `next_run`. -/
def SchedEval : Type := String → String → Option (Option String)

/-- `processTaskIpc` from `index.ts` (lines 571-815) as the list of
host-side actions it performs.  `evalSchedule` abstracts the cron and
date libraries; `newTaskId` and `createdAt` stand for the generated task
id and the creation time.  A schedule type other than `cron`, `interval`
or `once` falls through the `if` chain with a null `next_run`, as in the
source. -/
def processTaskIpc (evalSchedule : SchedEval) (newTaskId createdAt : String)
    (regs : List (String × RegisteredGroup)) (tasks : List TaskRec)
    (data : IpcData) (sourceGroup : String) (isMain : Bool) : List IpcAction :=
  if data.type == "schedule_task" then
    if truthy data.prompt && truthy data.schedule_type && truthy data.schedule_value
        && truthy data.targetJid then
      let targetJid := (data.targetJid).getD ""
      match lookupGroup regs targetJid with
      | none => []
      | some targetGroupEntry =>
        let targetFolder := targetGroupEntry.folder
        if !isMain && targetFolder != sourceGroup then []
        else
          let scheduleType := (data.schedule_type).getD ""
          let sched :=
            if scheduleType == "cron" || scheduleType == "interval"
                || scheduleType == "once" then
              evalSchedule scheduleType ((data.schedule_value).getD "")
            else some none
          match sched with
          | none => []
          | some nextRun =>
            let contextMode :=
              if data.context_mode == some "group" || data.context_mode == some "isolated"
              then (data.context_mode).getD "" else "isolated"
            [.createTask ⟨newTaskId, targetFolder, targetJid, (data.prompt).getD "",
              scheduleType, (data.schedule_value).getD "", contextMode, nextRun,
              "active", createdAt⟩]
    else []
  else if data.type == "pause_task" then
    if truthy data.taskId then
      let tid := (data.taskId).getD ""
      match getTaskById tasks tid with
      | some task => if isMain || task.group_folder == sourceGroup then [.pauseTask tid] else []
      | none => []
    else []
  else if data.type == "resume_task" then
    if truthy data.taskId then
      let tid := (data.taskId).getD ""
      match getTaskById tasks tid with
      | some task => if isMain || task.group_folder == sourceGroup then [.resumeTask tid] else []
      | none => []
    else []
  else if data.type == "cancel_task" then
    if truthy data.taskId then
      let tid := (data.taskId).getD ""
      match getTaskById tasks tid with
      | some task => if isMain || task.group_folder == sourceGroup then [.cancelTask tid] else []
      | none => []
    else []
  else if data.type == "refresh_groups" then
    if isMain then [.refreshGroups] else []
  else if data.type == "register_group" then
    if !isMain then []
    else if truthy data.jid && truthy data.name && truthy data.folder
        && truthy data.trigger then
      let folder := (data.folder).getD ""
      if folder.data.any (fun c => c == '.' || c == '/' || c == '\\') then []
      else
        [.registerGroupAction ((data.jid).getD "")
          ⟨(data.name).getD "", folder, (data.trigger).getD "", none⟩]
    else []
  else if data.type == "sync_knowledge" then
    if isMain then [.syncKnowledge] else []
  else []

/-- The split index chosen by `sendDiscordMessage` for an over-long
remainder: `remaining.lastIndexOf('\n', 2000)`, i.e. the greatest
newline index at most 2000, replaced by 2000 when it is `-1` or `0`
(`if (splitAt <= 0) splitAt = 2000`). -/
def splitPoint (remaining : List Char) : Nat :=
  match (((remaining.take 2001).enum.filter (fun p => p.2 == '\n')).map
      (fun p => p.1)).getLast? with
  | some i => if i = 0 then 2000 else i
  | none => 2000

/-- Fuel-indexed translation of the chunking loop of
`sendDiscordMessage` (`discord.ts` lines 97-109).  Each iteration
consumes at least `splitPoint` ≥ 1 characters, so fuel equal to the
text length is sufficient. -/
def chunksGo : Nat → List Char → List (List Char)
  | 0, _ => []
  | _ + 1, [] => []
  | fuel + 1, remaining =>
    if remaining.length ≤ 2000 then [remaining]
    else
      let sp := splitPoint remaining
      remaining.take sp ::
        chunksGo fuel ((remaining.drop sp).dropWhile isWsChar)

/-- The sequence of chunks `sendDiscordMessage` sends to the channel, in
order. -/
def sendDiscordMessage (text : String) : List String :=
  (chunksGo text.data.length text.data).map String.mk

/-- `chunks` reassemble `text` when `text` is the concatenation of the
chunks in order with a run of whitespace (possibly empty) dropped after
each chunk. -/
inductive Reassembles : List (List Char) → List Char → Prop where
  | nil : Reassembles [] []
  | cons (c w : List Char) (rest : List (List Char)) (s : List Char)
      (hw : ∀ ch ∈ w, isWsChar ch = true)
      (hrest : Reassembles rest s) :
      Reassembles (c :: rest) (c ++ (w ++ s))

/-! Order lemmas for the lexicographic timestamp comparison. -/

theorem lexLt_irrefl (l : List Char) : lexLt l l = false := by
  induction l with
  | nil => rfl
  | cons a as ih => simp [lexLt, ih]

theorem lexLt_trans {a b c : List Char} (h1 : lexLt a b = true)
    (h2 : lexLt b c = true) : lexLt a c = true := by
  induction a generalizing b c with
  | nil =>
    cases c with
    | nil =>
      cases b with
      | nil => simp [lexLt] at h1
      | cons y ys => simp [lexLt] at h2
    | cons z zs => simp [lexLt]
  | cons x xs ih =>
    cases b with
    | nil => simp [lexLt] at h1
    | cons y ys =>
      cases c with
      | nil => simp [lexLt] at h2
      | cons z zs =>
        simp only [lexLt] at h1 h2 ⊢
        by_cases hxy : x = y
        · subst hxy
          by_cases hyz : x = z
          · subst hyz
            simp only [if_pos rfl] at h1 h2 ⊢
            exact ih h1 h2
          · simp only [if_pos rfl, if_neg hyz] at h1 h2 ⊢
            exact h2
        · by_cases hyz : y = z
          · subst hyz
            simp only [if_neg hxy] at h1 ⊢
            exact h1
          · simp only [if_neg hxy] at h1
            simp only [if_neg hyz] at h2
            have hxz : x < z := lt_trans (of_decide_eq_true h1) (of_decide_eq_true h2)
            have hne : ¬ x = z := fun h => absurd (h ▸ hxz) (lt_irrefl z)
            simp only [if_neg hne]
            exact decide_eq_true hxz

theorem strLt_irrefl (a : String) : strLt a a = false := lexLt_irrefl a.data

theorem strLt_trans {a b c : String} (h1 : strLt a b = true)
    (h2 : strLt b c = true) : strLt a c = true := lexLt_trans h1 h2

theorem strLt_asymm {a b : String} (h : strLt a b = true) : strLt b a = false := by
  by_contra hc
  have h2 : strLt b a = true := by
    cases hba : strLt b a
    · exact absurd hba hc
    · rfl
  have := strLt_trans h h2
  rw [strLt_irrefl] at this
  exact Bool.false_ne_true this

theorem strLe_refl (a : String) : strLe a a = true := by
  simp [strLe]

theorem strLe_of_lt {a b : String} (h : strLt a b = true) : strLe a b = true := by
  simp [strLe, h]

theorem strLe_of_eq {a b : String} (h : a = b) : strLe a b = true := by
  simp [strLe, h]

theorem strLe_iff {a b : String} :
    strLe a b = true ↔ strLt a b = true ∨ a = b := by
  simp [strLe]

theorem strLe_trans {a b c : String} (h1 : strLe a b = true)
    (h2 : strLe b c = true) : strLe a c = true := by
  rcases strLe_iff.mp h1 with hab | hab
  · rcases strLe_iff.mp h2 with hbc | hbc
    · exact strLe_of_lt (strLt_trans hab hbc)
    · exact hbc ▸ strLe_of_lt hab
  · exact hab ▸ h2

theorem strLt_of_le_of_lt {a b c : String} (h1 : strLe a b = true)
    (h2 : strLt b c = true) : strLt a c = true := by
  rcases strLe_iff.mp h1 with hab | hab
  · exact strLt_trans hab h2
  · exact hab ▸ h2

theorem not_strLt_of_le {a b : String} (h : strLe a b = true) :
    strLt b a = false := by
  rcases strLe_iff.mp h with hab | hab
  · exact strLt_asymm hab
  · rw [hab]; exact strLt_irrefl b

/-! List helpers. -/

theorem getLast?_mem {α : Type} {l : List α} {a : α} (h : l.getLast? = some a) :
    a ∈ l := by
  obtain ⟨hne, rfl⟩ := List.mem_getLast?_eq_getLast (l := l) (x := a) h
  exact List.getLast_mem hne

theorem getLast?_isSome_of_ne_nil {α : Type} {l : List α} (h : l ≠ []) :
    ∃ a, l.getLast? = some a := by
  cases l with
  | nil => exact absurd rfl h
  | cons x xs => exact ⟨(x :: xs).getLast (by simp), List.getLast?_eq_getLast _ _⟩

theorem le_getLast_of_sorted {l : List NewMessage}
    (hp : l.Pairwise (fun a b => strLt a.timestamp b.timestamp = true))
    {m x : NewMessage} (hm : m ∈ l) (hl : l.getLast? = some x) :
    strLe m.timestamp x.timestamp = true := by
  induction l with
  | nil => cases hm
  | cons a as ih =>
    cases as with
    | nil =>
      simp at hm hl
      rw [hm, hl]
      exact strLe_refl _
    | cons b bs =>
      rw [List.getLast?_cons_cons] at hl
      rcases List.mem_cons.mp hm with rfl | hm'
      · have hx : x ∈ b :: bs := getLast?_mem hl
        exact strLe_of_lt ((List.pairwise_cons.mp hp).1 x hx)
      · exact ih (List.pairwise_cons.mp hp).2 hm' hl


/-- C1: if an agent dispatch of `processGroupMessages` happens (the
conversation is registered, the unseen batch is non-empty and is neither
the `!sync` command nor a trigger-less batch) and it fails — `runAgent`
returned `error` or a streamed event carried status `error` — while no
non-empty output chunk was relayed to the platform, then afterwards every
`lastAgentTimestamp` entry equals exactly its pre-attempt value and the
function returns `false`, so a later recheck re-attempts the same batch. -/
theorem C1_rollback_exact_on_failure_without_output
    (assistant mainFolder : String) (regs : List (String × RegisteredGroup))
    (store : List NewMessage) (cur : String → Option String)
    (chatJid : String) (att : AttemptOutcome) (group : RegisteredGroup)
    (lastMsg : NewMessage)
    (hg : lookupGroup regs chatJid = some group)
    (hl : (getMessagesSince store chatJid (optVal (cur chatJid)) assistant).getLast? = some lastMsg)
    (hsync : (trimLower lastMsg.content == "!sync") = false)
    (htrig : (!(group.folder == mainFolder) && group.requiresTrigger != some false &&
        !((getMessagesSince store chatJid (optVal (cur chatJid)) assistant).any
          (fun m => matchesTrigger group.trigger m.content))) = false)
    (hfail : attemptFailed att = true)
    (hnoout : outputRelayed assistant att = false) :
    (∀ x, (processGroupMessages assistant mainFolder regs store cur chatJid att).lastAgentTimestamp x = cur x) ∧
      (processGroupMessages assistant mainFolder regs store cur chatJid att).returned = false ∧
      (processGroupMessages assistant mainFolder regs store cur chatJid att).dispatchCount = 1 := by
  simp only [processGroupMessages, hg, hl, hsync, htrig, hfail, hnoout,
    Bool.false_eq_true, if_false, if_true]
  refine ⟨fun x => ?_, trivial, trivial⟩
  unfold updateCur
  by_cases hx : x = chatJid
  · rw [if_pos hx, hx]
  · rw [if_neg hx]

/-- Witness for C1: a concrete dispatch that fails with no relayed
output leaves the cursor entry untouched and returns `false`. -/
theorem C1_rollback_exact_on_failure_without_output_witness :
    lookupGroup [("c1", ⟨"g", "f", "@bot", none⟩)] "c1" = some ⟨"g", "f", "@bot", none⟩ ∧
    attemptFailed ⟨[], "error"⟩ = true ∧
    outputRelayed "Andy" ⟨[], "error"⟩ = false ∧
    (processGroupMessages "Andy" "main" [("c1", ⟨"g", "f", "@bot", none⟩)]
        [⟨"i1", "c1", "alice", "@bot hi", "t1"⟩] (fun _ => none) "c1"
        ⟨[], "error"⟩).lastAgentTimestamp "c1" = none ∧
    (processGroupMessages "Andy" "main" [("c1", ⟨"g", "f", "@bot", none⟩)]
        [⟨"i1", "c1", "alice", "@bot hi", "t1"⟩] (fun _ => none) "c1"
        ⟨[], "error"⟩).returned = false := by
  have h := C1_rollback_exact_on_failure_without_output "Andy" "main"
    [("c1", ⟨"g", "f", "@bot", none⟩)] [⟨"i1", "c1", "alice", "@bot hi", "t1"⟩]
    (fun _ => none) "c1" ⟨[], "error"⟩ ⟨"g", "f", "@bot", none⟩
    ⟨"i1", "c1", "alice", "@bot hi", "t1"⟩
    (by decide) (by decide) (by decide) (by decide) (by decide) (by decide)
  exact ⟨by decide, by decide, by decide, h.1 "c1", h.2.1⟩

/-- C2 exhibit: a dispatch over the batch ending at timestamp `t1` fails
after relaying a non-empty output chunk; `processGroupMessages` returns
`true` but leaves `lastAgentTimestamp` at its pre-attempt value (`none`)
instead of advancing it to `t1`, so a later recheck sees the same batch
again. -/
theorem C2_no_cursor_advance_after_partial_output :
    attemptFailed ⟨[⟨some "partial answer", none, some "ok"⟩], "error"⟩ = true ∧
    outputRelayed "Andy" ⟨[⟨some "partial answer", none, some "ok"⟩], "error"⟩ = true ∧
    (processGroupMessages "Andy" "main" [("c1", ⟨"g", "f", "@bot", none⟩)]
        [⟨"i1", "c1", "alice", "@bot hi", "t1"⟩] (fun _ => none) "c1"
        ⟨[⟨some "partial answer", none, some "ok"⟩], "error"⟩).dispatchCount = 1 ∧
    (processGroupMessages "Andy" "main" [("c1", ⟨"g", "f", "@bot", none⟩)]
        [⟨"i1", "c1", "alice", "@bot hi", "t1"⟩] (fun _ => none) "c1"
        ⟨[⟨some "partial answer", none, some "ok"⟩], "error"⟩).returned = true ∧
    (processGroupMessages "Andy" "main" [("c1", ⟨"g", "f", "@bot", none⟩)]
        [⟨"i1", "c1", "alice", "@bot hi", "t1"⟩] (fun _ => none) "c1"
        ⟨[⟨some "partial answer", none, some "ok"⟩], "error"⟩).lastAgentTimestamp "c1" = none ∧
    (getMessagesSince [⟨"i1", "c1", "alice", "@bot hi", "t1"⟩] "c1"
        (optVal none) "Andy").getLast? = some ⟨"i1", "c1", "alice", "@bot hi", "t1"⟩ := by
  refine ⟨by decide, by decide, by decide, by decide, by decide, by decide⟩

/-- C8: inside the streaming output callback of `processGroupMessages`,
the idle timer (whose expiry half-closes the container's standard input
via `queue.closeStdin`) is reset only for events whose `result` field is
non-null; an event with `result` equal to null never resets it. -/
theorem C8_idle_timer_reset_only_for_nonnull_result
    (assistant : String) (e : ContainerOutput) :
    ((streamEventEffect assistant e).resetIdle = true → e.result ≠ none) ∧
      (e.result = none → (streamEventEffect assistant e).resetIdle = false) := by
  constructor
  · intro h hn
    simp [streamEventEffect, hn] at h
  · intro hn
    simp [streamEventEffect, hn]

/-- Witness for C8 at a concrete null-result liveness event. -/
theorem C8_idle_timer_reset_only_for_nonnull_result_witness :
    (⟨none, some "sess", some "ok"⟩ : ContainerOutput).result = none ∧
      (streamEventEffect "Andy" ⟨none, some "sess", some "ok"⟩).resetIdle = false :=
  ⟨rfl, (C8_idle_timer_reset_only_for_nonnull_result "Andy"
    ⟨none, some "sess", some "ok"⟩).2 rfl⟩

/-- C6 (amended): for a conversation requiring a trigger, when the
unseen batch is `[m1 (no trigger), m2 (trigger), m3 (no trigger)]` and
the last message is not the `!sync` bot command, `processGroupMessages`
performs exactly one dispatch and its formatted prompt covers all three
messages; and when no unseen message matches the anchored trigger test
and the last message is not `!sync`, no dispatch occurs, the function
returns `true`, and the cursor map is untouched so the messages stay
pending (retained as context).  (The `!sync` exclusion is forced: the
bot-command interception runs before the trigger check and answers such
a batch directly, see the counterexample.) -/
theorem C6_trigger_batching :
    (∀ (assistant mainFolder : String) (regs : List (String × RegisteredGroup))
        (store : List NewMessage) (cur : String → Option String)
        (chatJid : String) (att : AttemptOutcome) (group : RegisteredGroup)
        (m1 m2 m3 : NewMessage),
      lookupGroup regs chatJid = some group →
      (group.folder == mainFolder) = false →
      (group.requiresTrigger != some false) = true →
      getMessagesSince store chatJid (optVal (cur chatJid)) assistant = [m1, m2, m3] →
      matchesTrigger group.trigger m1.content = false →
      matchesTrigger group.trigger m2.content = true →
      matchesTrigger group.trigger m3.content = false →
      (trimLower m3.content == "!sync") = false →
      (processGroupMessages assistant mainFolder regs store cur chatJid att).dispatchCount = 1 ∧
        (processGroupMessages assistant mainFolder regs store cur chatJid att).prompt =
          some (formatMessages [m1, m2, m3])) ∧
    (∀ (assistant mainFolder : String) (regs : List (String × RegisteredGroup))
        (store : List NewMessage) (cur : String → Option String)
        (chatJid : String) (att : AttemptOutcome) (group : RegisteredGroup),
      lookupGroup regs chatJid = some group →
      (group.folder == mainFolder) = false →
      (group.requiresTrigger != some false) = true →
      (∀ m ∈ getMessagesSince store chatJid (optVal (cur chatJid)) assistant,
        matchesTrigger group.trigger m.content = false) →
      lastContent (getMessagesSince store chatJid (optVal (cur chatJid)) assistant) ≠ "!sync" →
      (processGroupMessages assistant mainFolder regs store cur chatJid att).dispatchCount = 0 ∧
        (processGroupMessages assistant mainFolder regs store cur chatJid att).returned = true ∧
        ∀ x, (processGroupMessages assistant mainFolder regs store cur chatJid att).lastAgentTimestamp x = cur x) := by
  constructor
  · intro assistant mainFolder regs store cur chatJid att group m1 m2 m3
      hg hfold hreq hbatch ht1 ht2 ht3 hsync
    have hlast2 : ([m1, m2, m3] : List NewMessage).getLast? = some m3 := rfl
    have htrigl : (!(group.folder == mainFolder) && group.requiresTrigger != some false &&
        !(([m1, m2, m3] : List NewMessage).any
          (fun m => matchesTrigger group.trigger m.content))) = false := by
      have : (([m1, m2, m3] : List NewMessage).any
          (fun m => matchesTrigger group.trigger m.content)) = true := by
        simp [List.any_cons, ht2]
      rw [this]
      simp
    simp only [processGroupMessages, hg, hbatch, hlast2, hsync, htrigl,
      Bool.false_eq_true, if_false]
    cases haf : attemptFailed att with
    | true =>
      cases hor : outputRelayed assistant att with
      | true =>
        simp only [if_true]
        exact ⟨by trivial, by trivial⟩
      | false =>
        simp only [Bool.false_eq_true, if_false, if_true]
        exact ⟨by trivial, by trivial⟩
    | false =>
      simp only [Bool.false_eq_true, if_false]
      exact ⟨by trivial, by trivial⟩
  · intro assistant mainFolder regs store cur chatJid att group hg hfold hreq hall hsync
    cases hl : (getMessagesSince store chatJid (optVal (cur chatJid)) assistant).getLast? with
    | none =>
      simp only [processGroupMessages, hg, hl]
      exact ⟨by trivial, by trivial, fun x => by trivial⟩
    | some lastMsg =>
      have hsyncb : (trimLower lastMsg.content == "!sync") = false := by
        unfold lastContent at hsync
        rw [hl] at hsync
        simp only [Option.elim] at hsync
        cases hb : (trimLower lastMsg.content == "!sync")
        · rfl
        · exact absurd (eq_of_beq hb) hsync
      have hany : ((getMessagesSince store chatJid (optVal (cur chatJid)) assistant).any
          (fun m => matchesTrigger group.trigger m.content)) = false := by
        cases hb : ((getMessagesSince store chatJid (optVal (cur chatJid)) assistant).any
            (fun m => matchesTrigger group.trigger m.content))
        · rfl
        · obtain ⟨m, hm, hmt⟩ := List.any_eq_true.mp hb
          rw [hall m hm] at hmt
          exact absurd hmt (by simp)
      have htrig : (!(group.folder == mainFolder) && group.requiresTrigger != some false &&
          !((getMessagesSince store chatJid (optVal (cur chatJid)) assistant).any
            (fun m => matchesTrigger group.trigger m.content))) = true := by
        rw [hany, hfold, hreq]
        rfl
      simp only [processGroupMessages, hg, hl, hsyncb, htrig, Bool.false_eq_true,
        if_false, if_true]
      exact ⟨by trivial, by trivial, fun x => by trivial⟩

/-- Witness for C6: both halves at concrete batches. -/
theorem C6_trigger_batching_witness :
    getMessagesSince
      [⟨"i1", "c1", "alice", "hello", "t1"⟩, ⟨"i2", "c1", "bob", "@bot what is up", "t2"⟩,
        ⟨"i3", "c1", "alice", "ok then", "t3"⟩] "c1" (optVal none) "Andy" =
      [⟨"i1", "c1", "alice", "hello", "t1"⟩, ⟨"i2", "c1", "bob", "@bot what is up", "t2"⟩,
        ⟨"i3", "c1", "alice", "ok then", "t3"⟩] ∧
    matchesTrigger "@bot" "@bot what is up" = true ∧
    matchesTrigger "@bot" "hello" = false ∧
    (processGroupMessages "Andy" "main" [("c1", ⟨"g", "f", "@bot", none⟩)]
        [⟨"i1", "c1", "alice", "hello", "t1"⟩, ⟨"i2", "c1", "bob", "@bot what is up", "t2"⟩,
          ⟨"i3", "c1", "alice", "ok then", "t3"⟩]
        (fun _ => none) "c1" ⟨[], "success"⟩).dispatchCount = 1 ∧
    (processGroupMessages "Andy" "main" [("c1", ⟨"g", "f", "@bot", none⟩)]
        [⟨"i1", "c1", "alice", "hello", "t1"⟩, ⟨"i2", "c1", "bob", "@bot what is up", "t2"⟩,
          ⟨"i3", "c1", "alice", "ok then", "t3"⟩]
        (fun _ => none) "c1" ⟨[], "success"⟩).prompt =
      some (formatMessages
        [⟨"i1", "c1", "alice", "hello", "t1"⟩, ⟨"i2", "c1", "bob", "@bot what is up", "t2"⟩,
          ⟨"i3", "c1", "alice", "ok then", "t3"⟩]) ∧
    (processGroupMessages "Andy" "main" [("c1", ⟨"g", "f", "@bot", none⟩)]
        [⟨"i1", "c1", "alice", "hello", "t1"⟩]
        (fun _ => none) "c1" ⟨[], "success"⟩).dispatchCount = 0 ∧
    (processGroupMessages "Andy" "main" [("c1", ⟨"g", "f", "@bot", none⟩)]
        [⟨"i1", "c1", "alice", "hello", "t1"⟩]
        (fun _ => none) "c1" ⟨[], "success"⟩).returned = true ∧
    (processGroupMessages "Andy" "main" [("c1", ⟨"g", "f", "@bot", none⟩)]
        [⟨"i1", "c1", "alice", "hello", "t1"⟩]
        (fun _ => none) "c1" ⟨[], "success"⟩).lastAgentTimestamp "c1" = none := by
  have hA := C6_trigger_batching.1 "Andy" "main" [("c1", ⟨"g", "f", "@bot", none⟩)]
    [⟨"i1", "c1", "alice", "hello", "t1"⟩, ⟨"i2", "c1", "bob", "@bot what is up", "t2"⟩,
      ⟨"i3", "c1", "alice", "ok then", "t3"⟩]
    (fun _ => none) "c1" ⟨[], "success"⟩ ⟨"g", "f", "@bot", none⟩
    ⟨"i1", "c1", "alice", "hello", "t1"⟩ ⟨"i2", "c1", "bob", "@bot what is up", "t2"⟩
    ⟨"i3", "c1", "alice", "ok then", "t3"⟩
    (by decide) (by decide) (by decide) (by decide) (by decide) (by decide) (by decide) (by decide)
  have hB := C6_trigger_batching.2 "Andy" "main" [("c1", ⟨"g", "f", "@bot", none⟩)]
    [⟨"i1", "c1", "alice", "hello", "t1"⟩]
    (fun _ => none) "c1" ⟨[], "success"⟩ ⟨"g", "f", "@bot", none⟩
    (by decide) (by decide) (by decide)
    (by intro m hm; fin_cases hm; decide) (by decide)
  exact ⟨by decide, by decide, by decide, hA.1, hA.2, hB.1, hB.2.1, hB.2.2 "c1"⟩

/-- Elements emitted by `recoverPendingMessages` are registered
conversation ids. -/
theorem mem_recover_sub {assistant : String} {regs : List (String × RegisteredGroup)}
    {cur : String → Option String} {store : List NewMessage} {x : String}
    (hx : x ∈ recoverPendingMessages assistant regs cur store) :
    x ∈ regs.map Prod.fst := by
  unfold recoverPendingMessages at hx
  obtain ⟨p, hp, hf⟩ := List.mem_filterMap.mp hx
  by_cases he : (getMessagesSince store p.1 (optVal (cur p.1)) assistant).isEmpty
  · rw [if_pos he] at hf
    cases hf
  · rw [if_neg he] at hf
    cases hf
    exact List.mem_map.mpr ⟨p, hp, rfl⟩


/-- C7: at startup, `recoverPendingMessages` enqueues exactly one
message check with the Group Queue for each registered conversation that
has at least one stored non-assistant message with timestamp after its
persisted `lastAgentTimestamp`, and none for a conversation without such
pending messages (the emitted list holds one `enqueueMessageCheck`
target per element). -/
theorem C7_recovery_enqueues_exactly_pending (assistant : String) (regs : List (String × RegisteredGroup))
    (cur : String → Option String) (store : List NewMessage) (jid : String)
    (hnd : (regs.map Prod.fst).Nodup) :
    (recoverPendingMessages assistant regs cur store).count jid =
      if (lookupGroup regs jid).isSome ∧
          getMessagesSince store jid (optVal (cur jid)) assistant ≠ [] then 1 else 0 := by
  induction regs with
  | nil => simp [recoverPendingMessages, lookupGroup]
  | cons p ps ih =>
    simp only [List.map_cons, List.nodup_cons] at hnd
    obtain ⟨hpnotin, hnd'⟩ := hnd
    have hcons : recoverPendingMessages assistant (p :: ps) cur store =
        (if (getMessagesSince store p.1 (optVal (cur p.1)) assistant).isEmpty then
          recoverPendingMessages assistant ps cur store
        else p.1 :: recoverPendingMessages assistant ps cur store) := by
      unfold recoverPendingMessages
      rw [List.filterMap_cons]
      by_cases he : (getMessagesSince store p.1 (optVal (cur p.1)) assistant).isEmpty
      · rw [if_pos he, if_pos he]
      · rw [if_neg he, if_neg he]
    have hlook : lookupGroup (p :: ps) jid =
        (if p.1 == jid then some p.2 else lookupGroup ps jid) := by
      unfold lookupGroup
      rw [List.find?_cons]
      by_cases hq : (p.1 == jid) = true
      · rw [if_pos hq]
        simp [hq]
      · have hq' : (p.1 == jid) = false := by
          cases hb : (p.1 == jid)
          · rfl
          · exact absurd hb hq
        rw [hq']
        simp [hq']
    by_cases hjp : jid = p.1
    · have hnotin : p.1 ∉ recoverPendingMessages assistant ps cur store := by
        intro hmem
        exact hpnotin (mem_recover_sub hmem)
      have hzero : (recoverPendingMessages assistant ps cur store).count p.1 = 0 :=
        List.count_eq_zero.mpr hnotin
      rw [hcons, hlook, hjp]
      by_cases he : (getMessagesSince store p.1 (optVal (cur p.1)) assistant).isEmpty
      · rw [if_pos he, hzero]
        have hnc : ¬ ((if p.1 == p.1 then some p.2 else lookupGroup ps p.1).isSome = true ∧
            getMessagesSince store p.1 (optVal (cur p.1)) assistant ≠ []) := by
          rintro ⟨-, hne⟩
          exact hne (List.isEmpty_iff.mp he)
        rw [if_neg hnc]
      · rw [if_neg he, List.count_cons_self, hzero]
        have hc : ((if p.1 == p.1 then some p.2 else lookupGroup ps p.1).isSome = true ∧
            getMessagesSince store p.1 (optVal (cur p.1)) assistant ≠ []) := by
          refine ⟨by simp, fun hn => ?_⟩
          rw [hn] at he
          exact he rfl
        rw [if_pos hc]
    · have hq' : (p.1 == jid) = false := by
        cases hb : (p.1 == jid)
        · rfl
        · exact absurd (eq_of_beq hb).symm hjp
      rw [hcons, hlook, hq']
      simp only [Bool.false_eq_true, if_false]
      by_cases he : (getMessagesSince store p.1 (optVal (cur p.1)) assistant).isEmpty
      · rw [if_pos he]
        exact ih hnd'
      · rw [if_neg he]
        rw [List.count_cons_of_ne hjp]
        exact ih hnd'

/-- Witness for C7: two registered conversations, only the first has a
pending message; exactly one check is enqueued for it and none for the
second. -/
theorem C7_recovery_enqueues_exactly_pending_witness :
    ([("c1", ⟨"g", "f", "@bot", none⟩), ("c2", ⟨"h", "f2", "@cat", none⟩)].map
      (Prod.fst (α := String) (β := RegisteredGroup))).Nodup ∧
    getMessagesSince [⟨"i1", "c1", "alice", "hello", "t1"⟩] "c1" (optVal none) "Andy" ≠ [] ∧
    getMessagesSince [⟨"i1", "c1", "alice", "hello", "t1"⟩] "c2" (optVal none) "Andy" = [] ∧
    (recoverPendingMessages "Andy"
      [("c1", ⟨"g", "f", "@bot", none⟩), ("c2", ⟨"h", "f2", "@cat", none⟩)]
      (fun _ => none) [⟨"i1", "c1", "alice", "hello", "t1"⟩]).count "c1" = 1 ∧
    (recoverPendingMessages "Andy"
      [("c1", ⟨"g", "f", "@bot", none⟩), ("c2", ⟨"h", "f2", "@cat", none⟩)]
      (fun _ => none) [⟨"i1", "c1", "alice", "hello", "t1"⟩]).count "c2" = 0 := by
  refine ⟨by decide, by decide, by decide, ?_, ?_⟩
  · rw [C7_recovery_enqueues_exactly_pending "Andy"
      [("c1", ⟨"g", "f", "@bot", none⟩), ("c2", ⟨"h", "f2", "@cat", none⟩)]
      (fun _ => none) [⟨"i1", "c1", "alice", "hello", "t1"⟩] "c1" (by decide)]
    decide
  · rw [C7_recovery_enqueues_exactly_pending "Andy"
      [("c1", ⟨"g", "f", "@bot", none⟩), ("c2", ⟨"h", "f2", "@cat", none⟩)]
      (fun _ => none) [⟨"i1", "c1", "alice", "hello", "t1"⟩] "c2" (by decide)]
    decide

/-- Any action emitted by `processTaskIpc` for a non-main source group is
authorized: created tasks target a conversation registered to the source
folder, and task mutations target tasks owned by the source folder. -/
theorem taskIpc_nonmain_sound {evalSchedule : SchedEval} {newTaskId createdAt : String}
    {regs : List (String × RegisteredGroup)} {tasks : List TaskRec}
    {data : IpcData} {src : String} {a : IpcAction}
    (ha : a ∈ processTaskIpc evalSchedule newTaskId createdAt regs tasks data src false) :
    (∃ t, a = .createTask t ∧
      (∃ g, lookupGroup regs t.chat_jid = some g ∧ g.folder = src) ∧
      t.group_folder = src) ∨
    (∃ tid tk, (a = .pauseTask tid ∨ a = .resumeTask tid ∨ a = .cancelTask tid) ∧
      getTaskById tasks tid = some tk ∧ tk.group_folder = src) := by
  simp only [processTaskIpc] at ha
  by_cases ht1 : (data.type == "schedule_task") = true
  · rw [if_pos ht1] at ha
    by_cases hf : (truthy data.prompt && truthy data.schedule_type &&
        truthy data.schedule_value && truthy data.targetJid) = true
    · rw [if_pos hf] at ha
      cases hL : lookupGroup regs ((data.targetJid).getD "") with
      | none => simp [hL] at ha
      | some tg =>
        simp only [hL] at ha
        by_cases hnauth : (!false && tg.folder != src) = true
        · rw [if_pos hnauth] at ha; cases ha
        · rw [if_neg hnauth] at ha
          have hfold : tg.folder = src := by
            simp only [Bool.not_false, Bool.true_and, bne_iff_ne, ne_eq,
              Bool.not_eq_true, Decidable.not_not] at hnauth
            exact hnauth
          split at ha
          · cases ha
          · simp only [List.mem_singleton] at ha
            subst ha
            exact Or.inl ⟨_, rfl, ⟨tg, hL, hfold⟩, hfold⟩
    · rw [if_neg hf] at ha; cases ha
  · rw [if_neg ht1] at ha
    by_cases ht2 : (data.type == "pause_task") = true
    · rw [if_pos ht2] at ha
      by_cases hf : (truthy data.taskId) = true
      · rw [if_pos hf] at ha
        cases hT : getTaskById tasks ((data.taskId).getD "") with
        | none => simp [hT] at ha
        | some task =>
          simp only [hT] at ha
          by_cases hauth : (false || task.group_folder == src) = true
          · rw [if_pos hauth] at ha
            simp only [List.mem_singleton] at ha
            subst ha
            rw [Bool.false_or] at hauth
            exact Or.inr ⟨_, task, Or.inl rfl, hT, eq_of_beq hauth⟩
          · rw [if_neg hauth] at ha; cases ha
      · rw [if_neg hf] at ha; cases ha
    · rw [if_neg ht2] at ha
      by_cases ht3 : (data.type == "resume_task") = true
      · rw [if_pos ht3] at ha
        by_cases hf : (truthy data.taskId) = true
        · rw [if_pos hf] at ha
          cases hT : getTaskById tasks ((data.taskId).getD "") with
          | none => simp [hT] at ha
          | some task =>
            simp only [hT] at ha
            by_cases hauth : (false || task.group_folder == src) = true
            · rw [if_pos hauth] at ha
              simp only [List.mem_singleton] at ha
              subst ha
              rw [Bool.false_or] at hauth
              exact Or.inr ⟨_, task, Or.inr (Or.inl rfl), hT, eq_of_beq hauth⟩
            · rw [if_neg hauth] at ha; cases ha
        · rw [if_neg hf] at ha; cases ha
      · rw [if_neg ht3] at ha
        by_cases ht4 : (data.type == "cancel_task") = true
        · rw [if_pos ht4] at ha
          by_cases hf : (truthy data.taskId) = true
          · rw [if_pos hf] at ha
            cases hT : getTaskById tasks ((data.taskId).getD "") with
            | none => simp [hT] at ha
            | some task =>
              simp only [hT] at ha
              by_cases hauth : (false || task.group_folder == src) = true
              · rw [if_pos hauth] at ha
                simp only [List.mem_singleton] at ha
                subst ha
                rw [Bool.false_or] at hauth
                exact Or.inr ⟨_, task, Or.inr (Or.inr rfl), hT, eq_of_beq hauth⟩
              · rw [if_neg hauth] at ha; cases ha
          · rw [if_neg hf] at ha; cases ha
        · rw [if_neg ht4] at ha
          by_cases ht5 : (data.type == "refresh_groups") = true
          · rw [if_pos ht5] at ha
            simp at ha
          · rw [if_neg ht5] at ha
            by_cases ht6 : (data.type == "register_group") = true
            · rw [if_pos ht6] at ha
              simp at ha
            · rw [if_neg ht6] at ha
              by_cases ht7 : (data.type == "sync_knowledge") = true
              · rw [if_pos ht7] at ha
                simp at ha
              · rw [if_neg ht7] at ha
                cases ha


/-- C9: an IPC command file processed from a non-main source group folder
never acts on a target the folder does not own.  Messages and reactions
are sent only to conversations whose registration folder equals the
source group; tasks are created only for such conversations (and owned by
the source folder); pause, resume and cancel apply only to tasks whose
`group_folder` is the source group; `register_group` is never executed.
Contrapositive of the claim: for an unregistered target or one registered
to another folder, no such action appears in the handler output — the
request is only logged and rejected. -/
theorem C9_ipc_rejects_unauthorized_targets (assistant : String) (evalSchedule : SchedEval)
    (newTaskId createdAt : String)
    (regs : List (String × RegisteredGroup)) (tasks : List TaskRec)
    (data : IpcData) (sourceGroup : String) :
    (∀ cj t, IpcAction.sendMsg cj t ∈ processMessageIpc assistant regs data sourceGroup false →
      ∃ g, lookupGroup regs cj = some g ∧ g.folder = sourceGroup) ∧
    (∀ cj mid em, IpcAction.react cj mid em ∈ processMessageIpc assistant regs data sourceGroup false →
      ∃ g, lookupGroup regs cj = some g ∧ g.folder = sourceGroup) ∧
    (∀ t, IpcAction.createTask t ∈
        processTaskIpc evalSchedule newTaskId createdAt regs tasks data sourceGroup false →
      (∃ g, lookupGroup regs t.chat_jid = some g ∧ g.folder = sourceGroup) ∧
        t.group_folder = sourceGroup) ∧
    (∀ tid, IpcAction.pauseTask tid ∈
        processTaskIpc evalSchedule newTaskId createdAt regs tasks data sourceGroup false →
      ∃ tk, getTaskById tasks tid = some tk ∧ tk.group_folder = sourceGroup) ∧
    (∀ tid, IpcAction.resumeTask tid ∈
        processTaskIpc evalSchedule newTaskId createdAt regs tasks data sourceGroup false →
      ∃ tk, getTaskById tasks tid = some tk ∧ tk.group_folder = sourceGroup) ∧
    (∀ tid, IpcAction.cancelTask tid ∈
        processTaskIpc evalSchedule newTaskId createdAt regs tasks data sourceGroup false →
      ∃ tk, getTaskById tasks tid = some tk ∧ tk.group_folder = sourceGroup) ∧
    (∀ jid g, IpcAction.registerGroupAction jid g ∉
        processTaskIpc evalSchedule newTaskId createdAt regs tasks data sourceGroup false) := by
  refine ⟨?_, ?_, ?_, ?_, ?_, ?_, ?_⟩
  · intro cj t hmem
    unfold processMessageIpc at hmem
    by_cases h1 : (data.type == "message" && truthy data.chatJid && truthy data.text) = true
    · rw [if_pos h1] at hmem
      by_cases hauth : (false || (match lookupGroup regs ((data.chatJid).getD "") with
          | some tg => tg.folder == sourceGroup
          | none => false)) = true
      · rw [if_pos hauth] at hmem
        simp only [List.mem_singleton] at hmem
        cases hmem
        cases hL : lookupGroup regs ((data.chatJid).getD "") with
        | none => rw [Bool.false_or, hL] at hauth; exact absurd hauth (by simp)
        | some tg =>
          rw [Bool.false_or, hL] at hauth
          exact ⟨tg, rfl, eq_of_beq hauth⟩
      · rw [if_neg hauth] at hmem
        cases hmem
    · rw [if_neg h1] at hmem
      by_cases h2 : (data.type == "reaction" && truthy data.chatJid && truthy data.messageId
          && truthy data.emoji) = true
      · rw [if_pos h2] at hmem
        by_cases hauth : (false || (match lookupGroup regs ((data.chatJid).getD "") with
            | some tg => tg.folder == sourceGroup
            | none => false)) = true
        · rw [if_pos hauth] at hmem
          simp at hmem
        · rw [if_neg hauth] at hmem
          cases hmem
      · rw [if_neg h2] at hmem
        cases hmem
  · intro cj mid em hmem
    unfold processMessageIpc at hmem
    by_cases h1 : (data.type == "message" && truthy data.chatJid && truthy data.text) = true
    · rw [if_pos h1] at hmem
      by_cases hauth : (false || (match lookupGroup regs ((data.chatJid).getD "") with
          | some tg => tg.folder == sourceGroup
          | none => false)) = true
      · rw [if_pos hauth] at hmem
        simp at hmem
      · rw [if_neg hauth] at hmem
        cases hmem
    · rw [if_neg h1] at hmem
      by_cases h2 : (data.type == "reaction" && truthy data.chatJid && truthy data.messageId
          && truthy data.emoji) = true
      · rw [if_pos h2] at hmem
        by_cases hauth : (false || (match lookupGroup regs ((data.chatJid).getD "") with
            | some tg => tg.folder == sourceGroup
            | none => false)) = true
        · rw [if_pos hauth] at hmem
          simp only [List.mem_singleton] at hmem
          cases hmem
          cases hL : lookupGroup regs ((data.chatJid).getD "") with
          | none => rw [Bool.false_or, hL] at hauth; exact absurd hauth (by simp)
          | some tg =>
            rw [Bool.false_or, hL] at hauth
            exact ⟨tg, rfl, eq_of_beq hauth⟩
        · rw [if_neg hauth] at hmem
          cases hmem
      · rw [if_neg h2] at hmem
        cases hmem
  · intro t hmem
    rcases taskIpc_nonmain_sound hmem with ⟨t', heq, hg, hf⟩ | ⟨tid, tk, hd, hT, hf⟩
    · cases heq
      exact ⟨hg, hf⟩
    · rcases hd with h | h | h <;> cases h
  · intro tid hmem
    rcases taskIpc_nonmain_sound hmem with ⟨t', heq, hg, hf⟩ | ⟨tid', tk, hd, hT, hf⟩
    · cases heq
    · rcases hd with h | h | h <;> cases h
      exact ⟨tk, hT, hf⟩
  · intro tid hmem
    rcases taskIpc_nonmain_sound hmem with ⟨t', heq, hg, hf⟩ | ⟨tid', tk, hd, hT, hf⟩
    · cases heq
    · rcases hd with h | h | h <;> cases h
      exact ⟨tk, hT, hf⟩
  · intro tid hmem
    rcases taskIpc_nonmain_sound hmem with ⟨t', heq, hg, hf⟩ | ⟨tid', tk, hd, hT, hf⟩
    · cases heq
    · rcases hd with h | h | h <;> cases h
      exact ⟨tk, hT, hf⟩
  · intro jid g hmem
    rcases taskIpc_nonmain_sound hmem with ⟨t', heq, hg, hf⟩ | ⟨tid', tk, hd, hT, hf⟩
    · cases heq
    · rcases hd with h | h | h <;> cases h

/-- Witness for C9: a non-main group sends a message to its own
conversation (authorized, hence emitted), and the theorem yields the
owning registration. -/
theorem C9_ipc_rejects_unauthorized_targets_witness :
    IpcAction.sendMsg "c1" "Andy: hello" ∈
      processMessageIpc "Andy" [("c1", ⟨"g", "g1", "@bot", none⟩)]
        { type := "message", chatJid := some "c1", text := some "hello" } "g1" false ∧
    (∃ g, lookupGroup [("c1", ⟨"g", "g1", "@bot", none⟩)] "c1" = some g ∧
      g.folder = "g1") := by
  refine ⟨by decide, ?_⟩
  exact (C9_ipc_rejects_unauthorized_targets "Andy" (fun _ _ => none) "t" "now"
    [("c1", ⟨"g", "g1", "@bot", none⟩)] []
    { type := "message", chatJid := some "c1", text := some "hello" } "g1").1
    "c1" "Andy: hello" (by decide)

theorem splitPoint_pos (remaining : List Char) : 1 ≤ splitPoint remaining := by
  unfold splitPoint
  cases h : (((remaining.take 2001).enum.filter (fun p => p.2 == '\n')).map
      (fun p => p.1)).getLast? with
  | none => show (1 : Nat) ≤ 2000; norm_num
  | some i =>
    show (1 : Nat) ≤ if i = 0 then 2000 else i
    by_cases hz : i = 0
    · rw [if_pos hz]; norm_num
    · rw [if_neg hz]; exact Nat.one_le_iff_ne_zero.mpr hz

theorem splitPoint_le (remaining : List Char) : splitPoint remaining ≤ 2000 := by
  unfold splitPoint
  cases h : (((remaining.take 2001).enum.filter (fun p => p.2 == '\n')).map
      (fun p => p.1)).getLast? with
  | none => show (2000 : Nat) ≤ 2000; exact Nat.le_refl 2000
  | some i =>
    show (if i = 0 then 2000 else i) ≤ 2000
    by_cases hz : i = 0
    · rw [if_pos hz]
    · rw [if_neg hz]
      have hi : i ∈ ((remaining.take 2001).enum.filter (fun p => p.2 == '\n')).map
          (fun p => p.1) := getLast?_mem h
      obtain ⟨p, hp, hpe⟩ := List.mem_map.mp hi
      have hpm : p ∈ (remaining.take 2001).enum := (List.mem_filter.mp hp).1
      have := List.fst_lt_of_mem_enum hpm
      rw [hpe] at this
      have hlen : (remaining.take 2001).length ≤ 2001 := by
        rw [List.length_take]
        exact Nat.min_le_left ..
      exact Nat.lt_succ_iff.mp (Nat.lt_of_lt_of_le this hlen)

theorem Reassembles_cons_eq {c w : List Char} {rest : List (List Char)}
    {s t : List Char} (hw : ∀ ch ∈ w, isWsChar ch = true)
    (hrest : Reassembles rest s) (ht : t = c ++ (w ++ s)) :
    Reassembles (c :: rest) t := by
  rw [ht]
  exact Reassembles.cons c w rest s hw hrest

theorem chunksGo_spec : ∀ (fuel : Nat) (l : List Char), l.length ≤ fuel →
    (∀ ch ∈ chunksGo fuel l, ch ≠ [] ∧ ch.length ≤ 2000) ∧
      Reassembles (chunksGo fuel l) l := by
  intro fuel
  induction fuel with
  | zero =>
    intro l hl
    have : l = [] := List.eq_nil_of_length_eq_zero (Nat.le_zero.mp hl)
    subst this
    exact ⟨fun ch hch => absurd hch (by simp [chunksGo]), by rw [show chunksGo 0 [] = [] from rfl]; exact Reassembles.nil⟩
  | succ fuel ih =>
    intro l hl
    cases l with
    | nil =>
      refine ⟨fun ch hch => absurd hch (by simp [chunksGo]), ?_⟩
      rw [show chunksGo (fuel + 1) [] = [] from rfl]
      exact Reassembles.nil
    | cons c cs =>
      by_cases hshort : (c :: cs).length ≤ 2000
      · rw [show chunksGo (fuel + 1) (c :: cs) = [c :: cs] from by
          unfold chunksGo; rw [if_pos hshort]]
        refine ⟨fun ch hch => ?_, ?_⟩
        · rw [List.mem_singleton] at hch
          subst hch
          exact ⟨by simp, hshort⟩
        · exact Reassembles_cons_eq (fun ch hch => absurd hch (List.not_mem_nil ch))
            Reassembles.nil (by simp)
      · have hstep : chunksGo (fuel + 1) (c :: cs) =
            (c :: cs).take (splitPoint (c :: cs)) ::
              chunksGo fuel (((c :: cs).drop (splitPoint (c :: cs))).dropWhile isWsChar) := by
          have hif : chunksGo (fuel + 1) (c :: cs) =
              if (c :: cs).length ≤ 2000 then [c :: cs]
              else (c :: cs).take (splitPoint (c :: cs)) ::
                chunksGo fuel (((c :: cs).drop (splitPoint (c :: cs))).dropWhile isWsChar) := rfl
          rw [hif, if_neg hshort]
        have hlong : 2000 < (c :: cs).length := Nat.lt_of_not_le hshort
        have hsp1 : 1 ≤ splitPoint (c :: cs) := splitPoint_pos _
        have hsp2 : splitPoint (c :: cs) ≤ 2000 := splitPoint_le _
        have htklen : ((c :: cs).take (splitPoint (c :: cs))).length = splitPoint (c :: cs) := by
          rw [List.length_take]
          exact Nat.min_eq_left (Nat.le_of_lt (Nat.lt_of_le_of_lt hsp2 hlong))
        have hrest : (((c :: cs).drop (splitPoint (c :: cs))).dropWhile isWsChar).length ≤ fuel := by
          have h1 : (((c :: cs).drop (splitPoint (c :: cs))).dropWhile isWsChar).length ≤
              ((c :: cs).drop (splitPoint (c :: cs))).length :=
            (List.dropWhile_sublist _).length_le
          have h2 : ((c :: cs).drop (splitPoint (c :: cs))).length =
              (c :: cs).length - splitPoint (c :: cs) := List.length_drop ..
          have h3 : (c :: cs).length - splitPoint (c :: cs) ≤ (c :: cs).length - 1 :=
            Nat.sub_le_sub_left hsp1 _
          have h4 : (c :: cs).length - 1 ≤ fuel := by
            have : (c :: cs).length ≤ fuel + 1 := hl
            omega
          omega
        obtain ⟨ihall, ihre⟩ := ih _ hrest
        rw [hstep]
        refine ⟨fun ch hch => ?_, ?_⟩
        · rcases List.mem_cons.mp hch with rfl | hch'
          · constructor
            · intro hnil
              rw [hnil] at htklen
              simp at htklen
              omega
            · rw [htklen]; exact hsp2
          · exact ihall ch hch'
        · exact Reassembles_cons_eq (fun ch hch => List.mem_takeWhile_imp hch) ihre
            (by rw [List.takeWhile_append_dropWhile, List.take_append_drop])

/-- C10: `sendDiscordMessage` sends the text as a sequence of chunks in
order where every chunk is non-empty and at most 2000 characters, and
the in-order concatenation of the chunks equals the original text up to
a (possibly empty) run of whitespace removed at each split boundary. -/
theorem C10_discord_chunking (text : String) :
    (∀ ch ∈ sendDiscordMessage text, ch ≠ "" ∧ ch.length ≤ 2000) ∧
      Reassembles ((sendDiscordMessage text).map String.data) text.data := by
  obtain ⟨hall, hre⟩ := chunksGo_spec text.data.length text.data (Nat.le_refl _)
  constructor
  · intro ch hch
    unfold sendDiscordMessage at hch
    obtain ⟨c, hc, rfl⟩ := List.mem_map.mp hch
    obtain ⟨hne, hlen⟩ := hall c hc
    exact ⟨fun h => hne (congrArg String.data h), hlen⟩
  · unfold sendDiscordMessage
    have : ((chunksGo text.data.length text.data).map String.mk).map String.data =
        chunksGo text.data.length text.data := by
      induction chunksGo text.data.length text.data with
      | nil => rfl
      | cons c cs ih => simp [ih]
    rw [this]
    exact hre

/-! Facts about pending batches and the polling loop. -/

theorem mem_getMessagesSince {store : List NewMessage} {c since a : String}
    {m : NewMessage} (hm : m ∈ getMessagesSince store c since a) :
    m ∈ store ∧ m.chat_jid = c ∧ strLt since m.timestamp = true ∧
      m.sender_name ≠ a := by
  unfold getMessagesSince at hm
  simp only [List.mem_filter, Bool.and_eq_true, beq_iff_eq, bne_iff_ne, ne_eq] at hm
  exact ⟨hm.1, hm.2.1.1, hm.2.1.2, hm.2.2⟩

theorem getMessagesSince_mem_of {store : List NewMessage} {c since a : String}
    {m : NewMessage} (hst : m ∈ store) (hc : m.chat_jid = c)
    (hts : strLt since m.timestamp = true) (ha : m.sender_name ≠ a) :
    m ∈ getMessagesSince store c since a := by
  unfold getMessagesSince
  simp only [List.mem_filter, Bool.and_eq_true, beq_iff_eq, bne_iff_ne, ne_eq]
  exact ⟨hst, ⟨hc, hts⟩, ha⟩

theorem lastTs_spec {l : List NewMessage} (h : l ≠ []) :
    ∃ m, l.getLast? = some m ∧ m ∈ l ∧ lastTs l = m.timestamp := by
  obtain ⟨m, hm⟩ := getLast?_isSome_of_ne_nil h
  exact ⟨m, hm, getLast?_mem hm, by unfold lastTs; rw [hm]; rfl⟩

/-- The cursor value a successful pipe writes: the timestamp of the last
message of `messagesToSend`. -/
def pipeTarget (a : String) (st : SysState) (c : String) (gm : List NewMessage) : String :=
  lastTs (if (pendingFor a st c).isEmpty then gm else pendingFor a st c)

/-- The state a pipe writes. -/
def pipeState (a : String) (st : SysState) (c : String) (gm : List NewMessage) : SysState :=
  { st with lastAgentTimestamp := updateCur st.lastAgentTimestamp c (some (pipeTarget a st c gm)) }

theorem pollChat_cases (a mf : String) (st : SysState) (c : String)
    (gm : List NewMessage) :
    pollChat a mf st c gm = st ∨
    (hasActive st c = true ∧ gm ≠ [] ∧
      pollChat a mf st c gm = pipeState a st c gm) := by
  cases h : lookupGroup st.registeredGroups c with
  | none =>
    left
    unfold pollChat
    rw [h]
  | some g =>
    simp only [pollChat, h]
    by_cases hgm : gm.isEmpty = true
    · rw [if_pos hgm]
      left
      rfl
    · rw [if_neg hgm]
      by_cases htr : (g.folder != mf && g.requiresTrigger != some false &&
          !gm.any fun m => matchesTrigger g.trigger m.content) = true
      · rw [if_pos htr]
        left
        rfl
      · rw [if_neg htr]
        by_cases hact : hasActive st c = true
        · rw [if_pos hact]
          right
          refine ⟨hact, fun hn => ?_, rfl⟩
          rw [hn] at hgm
          exact hgm rfl
        · rw [if_neg hact]
          left
          rfl

theorem pollChat_store (a mf : String) (st : SysState) (c : String)
    (gm : List NewMessage) : (pollChat a mf st c gm).store = st.store := by
  rcases pollChat_cases a mf st c gm with h | ⟨-, -, h⟩ <;> rw [h] <;> rfl

theorem pollChat_lastTimestamp (a mf : String) (st : SysState) (c : String)
    (gm : List NewMessage) : (pollChat a mf st c gm).lastTimestamp = st.lastTimestamp := by
  rcases pollChat_cases a mf st c gm with h | ⟨-, -, h⟩ <;> rw [h] <;> rfl

theorem pollChat_active (a mf : String) (st : SysState) (c : String)
    (gm : List NewMessage) : (pollChat a mf st c gm).active = st.active := by
  rcases pollChat_cases a mf st c gm with h | ⟨-, -, h⟩ <;> rw [h] <;> rfl

theorem pollChat_regs (a mf : String) (st : SysState) (c : String)
    (gm : List NewMessage) :
    (pollChat a mf st c gm).registeredGroups = st.registeredGroups := by
  rcases pollChat_cases a mf st c gm with h | ⟨-, -, h⟩ <;> rw [h] <;> rfl

theorem hasActive_pollChat (a mf : String) (st : SysState) (c y : String)
    (gm : List NewMessage) : hasActive (pollChat a mf st c gm) y = hasActive st y := by
  unfold hasActive
  rw [pollChat_active]

theorem pollChat_cursor_ne {a mf : String} {st : SysState} {c : String}
    {gm : List NewMessage} {x : String} (hx : x ≠ c) :
    (pollChat a mf st c gm).lastAgentTimestamp x = st.lastAgentTimestamp x := by
  rcases pollChat_cases a mf st c gm with h | ⟨-, -, h⟩
  · rw [h]
  · rw [h]
    show updateCur st.lastAgentTimestamp c (some (pipeTarget a st c gm)) x = _
    unfold updateCur
    rw [if_neg hx]

theorem pendingFor_congr {a : String} {st st' : SysState} {c : String}
    (hst : st'.store = st.store)
    (hc : st'.lastAgentTimestamp c = st.lastAgentTimestamp c) :
    pendingFor a st' c = pendingFor a st c := by
  unfold pendingFor cursorVal
  rw [hst, hc]

theorem pipeTarget_congr {a : String} {st st' : SysState} {c : String}
    {gm : List NewMessage} (hst : st'.store = st.store)
    (hc : st'.lastAgentTimestamp c = st.lastAgentTimestamp c) :
    pipeTarget a st' c gm = pipeTarget a st c gm := by
  unfold pipeTarget
  rw [pendingFor_congr hst hc]

theorem pollChat_mono {a mf : String} {st : SysState} {c : String}
    {gm : List NewMessage}
    (hfb : hasActive st c = true → pendingFor a st c ≠ [] ∨ gm = []) :
    ∀ x, strLe (cursorVal st x) (cursorVal (pollChat a mf st c gm) x) = true := by
  intro x
  rcases pollChat_cases a mf st c gm with h | ⟨hact, hgm, h⟩
  · rw [h]
    exact strLe_refl _
  · rcases hfb hact with hpend | hemp
    · rw [h]
      by_cases hx : x = c
      · subst hx
        have hne : (pendingFor a st x).isEmpty = false := by
          cases hb : (pendingFor a st x).isEmpty
          · rfl
          · exact absurd (List.isEmpty_iff.mp hb) hpend
        obtain ⟨m, hsome, hmem, hts⟩ := lastTs_spec hpend
        have hlt := (mem_getMessagesSince hmem).2.2.1
        have hval : cursorVal (pipeState a st x gm) x = pipeTarget a st x gm := by
          unfold pipeState cursorVal optVal updateCur
          simp
        rw [hval]
        unfold pipeTarget
        rw [hne]
        simp only [Bool.false_eq_true, if_false]
        rw [hts]
        exact strLe_of_lt hlt
      · have : cursorVal (pipeState a st c gm) x = cursorVal st x := by
          unfold pipeState cursorVal optVal updateCur
          simp [hx]
        rw [this]
        exact strLe_refl _
    · exact absurd hemp hgm

theorem pollLoop_store (a mf : String) (pairs : List (String × List NewMessage))
    (st : SysState) : (pollLoop a mf st pairs).store = st.store := by
  induction pairs generalizing st with
  | nil => rfl
  | cons p rest ih =>
    unfold pollLoop at ih ⊢
    rw [List.foldl_cons, ih, pollChat_store]

theorem pollLoop_lastTimestamp (a mf : String) (pairs : List (String × List NewMessage))
    (st : SysState) : (pollLoop a mf st pairs).lastTimestamp = st.lastTimestamp := by
  induction pairs generalizing st with
  | nil => rfl
  | cons p rest ih =>
    unfold pollLoop at ih ⊢
    rw [List.foldl_cons, ih, pollChat_lastTimestamp]

theorem pollLoop_active (a mf : String) (pairs : List (String × List NewMessage))
    (st : SysState) : (pollLoop a mf st pairs).active = st.active := by
  induction pairs generalizing st with
  | nil => rfl
  | cons p rest ih =>
    unfold pollLoop at ih ⊢
    rw [List.foldl_cons, ih, pollChat_active]

theorem pollLoop_regs (a mf : String) (pairs : List (String × List NewMessage))
    (st : SysState) :
    (pollLoop a mf st pairs).registeredGroups = st.registeredGroups := by
  induction pairs generalizing st with
  | nil => rfl
  | cons p rest ih =>
    unfold pollLoop at ih ⊢
    rw [List.foldl_cons, ih, pollChat_regs]

theorem pollLoop_cursor_notmem {a mf : String}
    {pairs : List (String × List NewMessage)} {st : SysState} {x : String}
    (hx : x ∉ pairs.map Prod.fst) :
    (pollLoop a mf st pairs).lastAgentTimestamp x = st.lastAgentTimestamp x := by
  induction pairs generalizing st with
  | nil => rfl
  | cons p rest ih =>
    simp only [List.map_cons, List.mem_cons, not_or] at hx
    unfold pollLoop
    rw [List.foldl_cons]
    have := @ih (pollChat a mf st p.1 p.2) hx.2
    unfold pollLoop at this
    rw [this, pollChat_cursor_ne hx.1]

theorem pollLoop_mono {a mf : String} {pairs : List (String × List NewMessage)}
    {st : SysState} (hnd : (pairs.map Prod.fst).Nodup)
    (hfb : ∀ p ∈ pairs, hasActive st p.1 = true →
      pendingFor a st p.1 ≠ [] ∨ p.2 = []) :
    ∀ x, strLe (cursorVal st x) (cursorVal (pollLoop a mf st pairs) x) = true := by
  induction pairs generalizing st with
  | nil => intro x; exact strLe_refl _
  | cons p rest ih =>
    intro x
    simp only [List.map_cons, List.nodup_cons] at hnd
    obtain ⟨hp1, hnd'⟩ := hnd
    have h1 : strLe (cursorVal st x) (cursorVal (pollChat a mf st p.1 p.2) x) = true :=
      pollChat_mono (fun hact => hfb p (List.mem_cons_self p rest) hact) x
    have hfb' : ∀ q ∈ rest, hasActive (pollChat a mf st p.1 p.2) q.1 = true →
        pendingFor a (pollChat a mf st p.1 p.2) q.1 ≠ [] ∨ q.2 = [] := by
      intro q hq hact
      have hqs : q.1 ≠ p.1 := by
        intro he
        exact hp1 (he ▸ List.mem_map.mpr ⟨q, hq, rfl⟩)
      rw [hasActive_pollChat] at hact
      rw [pendingFor_congr (pollChat_store a mf st p.1 p.2) (pollChat_cursor_ne hqs)]
      exact hfb q (List.mem_cons_of_mem p hq) hact
    have h2 := ih hnd' hfb' x
    unfold pollLoop at h2 ⊢
    rw [List.foldl_cons]
    exact strLe_trans h1 h2

theorem pollLoop_cursor_spec {a mf : String}
    {pairs : List (String × List NewMessage)} {st : SysState}
    (hnd : (pairs.map Prod.fst).Nodup) :
    ∀ x, (pollLoop a mf st pairs).lastAgentTimestamp x = st.lastAgentTimestamp x ∨
      ∃ gm, (x, gm) ∈ pairs ∧
        (pollLoop a mf st pairs).lastAgentTimestamp x = some (pipeTarget a st x gm) := by
  induction pairs generalizing st with
  | nil => intro x; exact Or.inl rfl
  | cons p rest ih =>
    intro x
    simp only [List.map_cons, List.nodup_cons] at hnd
    obtain ⟨hp1, hnd'⟩ := hnd
    by_cases hx : x = p.1
    · subst hx
      have hnotin : p.1 ∉ rest.map Prod.fst := hp1
      unfold pollLoop
      rw [List.foldl_cons]
      have hrest' : (List.foldl (fun s q => pollChat a mf s q.1 q.2)
          (pollChat a mf st p.1 p.2) rest).lastAgentTimestamp p.1 =
          (pollChat a mf st p.1 p.2).lastAgentTimestamp p.1 :=
        pollLoop_cursor_notmem hnotin
      rw [hrest']
      rcases pollChat_cases a mf st p.1 p.2 with h | ⟨-, -, h⟩
      · rw [h]
        exact Or.inl rfl
      · rw [h]
        right
        refine ⟨p.2, List.mem_cons_self p rest, ?_⟩
        show updateCur st.lastAgentTimestamp p.1 (some (pipeTarget a st p.1 p.2)) p.1 = _
        unfold updateCur
        rw [if_pos rfl]
    · have h1 : (pollChat a mf st p.1 p.2).lastAgentTimestamp x =
          st.lastAgentTimestamp x := pollChat_cursor_ne hx
      have h2 := @ih (pollChat a mf st p.1 p.2) hnd' x
      unfold pollLoop at h2 ⊢
      rw [List.foldl_cons]
      rcases h2 with h2 | ⟨gm, hgm, h2⟩
      · rw [h2, h1]
        exact Or.inl rfl
      · right
        refine ⟨gm, List.mem_cons_of_mem p hgm, ?_⟩
        rw [h2]
        rw [pipeTarget_congr (pollChat_store a mf st p.1 p.2) (pollChat_cursor_ne hx)]

/-! The reachability invariant and its support lemmas. -/

/-- The messages of a conversation not yet observed by the polling loop:
stored non-assistant messages with timestamp after `lastTimestamp`. -/
def newFor (a : String) (s : SysState) (c : String) : List NewMessage :=
  getMessagesSince s.store c s.lastTimestamp a

theorem hasActive_exists {s : SysState} {c : String} (h : hasActive s c = true) :
    ∃ d ∈ s.active, d.chatJid = c := by
  unfold hasActive at h
  obtain ⟨d, hd, hb⟩ := List.any_eq_true.mp h
  exact ⟨d, hd, eq_of_beq hb⟩

theorem hasActive_false {s : SysState} {c : String} (h : hasActive s c = false)
    {d : Dispatch} (hd : d ∈ s.active) : d.chatJid ≠ c := by
  intro he
  unfold hasActive at h
  have : s.active.any (fun d' => d'.chatJid == c) = true :=
    List.any_eq_true.mpr ⟨d, hd, by simp [he]⟩
  rw [h] at this
  exact Bool.false_ne_true this

theorem dedupKeys_nodup (l : List String) : (dedupKeys l).Nodup := by
  induction l with
  | nil => exact List.nodup_nil
  | cons k ks ih =>
    unfold dedupKeys
    refine List.nodup_cons.mpr ⟨?_, List.Nodup.filter _ ih⟩
    intro hmem
    exact absurd ((List.mem_filter.mp hmem).2) (by simp)

theorem mem_dedupKeys {l : List String} {x : String} :
    x ∈ dedupKeys l ↔ x ∈ l := by
  induction l with
  | nil => simp [dedupKeys]
  | cons k ks ih =>
    unfold dedupKeys
    constructor
    · intro h
      rcases List.mem_cons.mp h with rfl | h'
      · exact List.mem_cons_self ..
      · exact List.mem_cons_of_mem _ (ih.mp (List.mem_filter.mp h').1)
    · intro h
      rcases List.mem_cons.mp h with rfl | h'
      · exact List.mem_cons_self ..
      · by_cases hx : x = k
        · exact hx ▸ List.mem_cons_self ..
        · exact List.mem_cons_of_mem _
            (List.mem_filter.mpr ⟨ih.mpr h', by simp [hx]⟩)

theorem groupPairs_keys_nodup (msgs : List NewMessage) :
    ((groupPairs msgs).map Prod.fst).Nodup := by
  unfold groupPairs
  rw [List.map_map]
  have : (Prod.fst ∘ fun c => (c, msgs.filter (fun m => m.chat_jid == c))) = id := by
    funext c
    rfl
  rw [this, List.map_id]
  exact dedupKeys_nodup _

theorem groupPairs_mem_val {msgs : List NewMessage} {x : String}
    {gm : List NewMessage} (h : (x, gm) ∈ groupPairs msgs) :
    gm = msgs.filter (fun m => m.chat_jid == x) ∧ gm ≠ [] := by
  unfold groupPairs at h
  obtain ⟨c, hc, he⟩ := List.mem_map.mp h
  have h1 : c = x := congrArg Prod.fst he
  have h2 : msgs.filter (fun m => m.chat_jid == c) = gm := congrArg Prod.snd he
  subst h1
  refine ⟨h2.symm, ?_⟩
  rw [← h2]
  obtain ⟨m, hm, hmc⟩ := List.mem_map.mp (mem_dedupKeys.mp hc)
  intro hnil
  have hmf : m ∈ msgs.filter (fun m' => m'.chat_jid == c) :=
    List.mem_filter.mpr ⟨hm, by simp [hmc]⟩
  rw [hnil] at hmf
  exact List.not_mem_nil m hmf

theorem mem_pollMsgs {a : String} {s : SysState} {m : NewMessage}
    (h : m ∈ pollMsgs a s) :
    m ∈ s.store ∧ m.chat_jid ∈ regKeys s ∧
      strLt s.lastTimestamp m.timestamp = true ∧ m.sender_name ≠ a := by
  unfold pollMsgs getNewMessages at h
  simp only [List.mem_filter, Bool.and_eq_true, List.elem_iff,
    bne_iff_ne, ne_eq] at h
  exact ⟨h.1, h.2.1.1, h.2.1.2, h.2.2⟩

theorem pollMsgs_mem_of {a : String} {s : SysState} {m : NewMessage}
    (hst : m ∈ s.store) (hc : m.chat_jid ∈ regKeys s)
    (hts : strLt s.lastTimestamp m.timestamp = true) (ha : m.sender_name ≠ a) :
    m ∈ pollMsgs a s := by
  unfold pollMsgs getNewMessages
  simp only [List.mem_filter, Bool.and_eq_true, List.elem_iff,
    bne_iff_ne, ne_eq]
  exact ⟨hst, ⟨hc, hts⟩, ha⟩

theorem pollMsgs_sorted {a : String} {s : SysState}
    (hwf : s.store.Pairwise (fun m1 m2 => strLt m1.timestamp m2.timestamp = true)) :
    (pollMsgs a s).Pairwise (fun m1 m2 => strLt m1.timestamp m2.timestamp = true) := by
  unfold pollMsgs getNewMessages
  exact hwf.sublist (List.filter_sublist _)

theorem pollNewTs_eq (a : String) (s : SysState) :
    pollNewTs a s = ((pollMsgs a s).getLast?).elim s.lastTimestamp (fun m => m.timestamp) :=
  rfl

theorem pollNewTs_spec {a : String} {s : SysState} (hne : pollMsgs a s ≠ []) :
    ∃ mlast, (pollMsgs a s).getLast? = some mlast ∧ mlast ∈ pollMsgs a s ∧
      pollNewTs a s = mlast.timestamp := by
  obtain ⟨mlast, hsome⟩ := getLast?_isSome_of_ne_nil hne
  refine ⟨mlast, hsome, getLast?_mem hsome, ?_⟩
  rw [pollNewTs_eq, hsome]
  rfl

theorem lookup_isSome_mem_keys {regs : List (String × RegisteredGroup)} {c : String}
    (h : (lookupGroup regs c).isSome = true) : c ∈ regs.map Prod.fst := by
  unfold lookupGroup at h
  cases hf : regs.find? (fun p => p.1 == c) with
  | none => rw [hf] at h; simp at h
  | some p =>
    have hp := List.find?_some hf
    have hpm := List.mem_of_find?_eq_some hf
    exact List.mem_map.mpr ⟨p, hpm, eq_of_beq hp⟩

theorem lookup_map_replace {regs : List (String × RegisteredGroup)}
    {jid x : String} {g : RegisteredGroup} :
    (lookupGroup (regs.map (fun p => if p.1 == jid then (jid, g) else p)) x).isSome =
      (lookupGroup regs x).isSome := by
  induction regs with
  | nil => rfl
  | cons p ps ih =>
    unfold lookupGroup at ih ⊢
    rw [List.map_cons, List.find?_cons, List.find?_cons]
    have hkey : ((if p.1 == jid then (jid, g) else p).1 == x) = (p.1 == x) := by
      by_cases hj : (p.1 == jid) = true
      · rw [if_pos hj]
        have h1 : p.1 = jid := eq_of_beq hj
        rw [← h1]
      · rw [if_neg hj]
    rw [hkey]
    cases hb : (p.1 == x) with
    | true =>
      rfl
    | false =>
      exact ih

theorem setRegistered_isSome_mono {regs : List (String × RegisteredGroup)}
    {jid x : String} {g : RegisteredGroup}
    (h : (lookupGroup regs x).isSome = true) :
    (lookupGroup (setRegistered regs jid g) x).isSome = true := by
  unfold setRegistered
  by_cases hex : (regs.find? (fun p => p.1 == jid)).isSome = true
  · rw [if_pos hex, lookup_map_replace]
    exact h
  · rw [if_neg hex]
    unfold lookupGroup at h ⊢
    rw [List.find?_append]
    cases hf : regs.find? (fun p => p.1 == x) with
    | none => rw [hf] at h; simp at h
    | some p => simp

theorem updateCur_self (cur : String → Option String) (c : String)
    (v : Option String) : updateCur cur c v c = v := by
  unfold updateCur
  rw [if_pos rfl]

theorem updateCur_ne {cur : String → Option String} {c x : String}
    {v : Option String} (hx : x ≠ c) : updateCur cur c v x = cur x := by
  unfold updateCur
  rw [if_neg hx]

theorem getMessagesSince_append (store : List NewMessage) (m : NewMessage)
    (c since a : String) :
    getMessagesSince (store ++ [m]) c since a =
      getMessagesSince store c since a ++
        (if m.chat_jid == c && strLt since m.timestamp && m.sender_name != a
         then [m] else []) := by
  unfold getMessagesSince
  rw [List.filter_append, List.filter_singleton]
  cases hb : (m.chat_jid == c && strLt since m.timestamp && m.sender_name != a) <;> rfl

/-- The reachability invariant of the engine state: the store is sorted,
every cursor and dispatch bound points at a stored timestamp, the
captured `previousCursor` of an in-flight dispatch never exceeds the
current cursor, in-flight dispatches belong to registered conversations,
and an in-flight dispatch always has either pending unseen messages or
no stored messages beyond the observe cursor (so the polling loop's
fallback branch cannot fire for it). -/
structure EngineInv (a : String) (s : SysState) : Prop where
  wf : s.store.Pairwise (fun m1 m2 => strLt m1.timestamp m2.timestamp = true)
  cursorBound : ∀ c, s.lastAgentTimestamp c = none ∨
    ∃ m ∈ s.store, s.lastAgentTimestamp c = some m.timestamp
  prevBound : ∀ d ∈ s.active, d.previousCursor = none ∨
    ∃ m ∈ s.store, d.previousCursor = some m.timestamp
  targetBound : ∀ d ∈ s.active, ∃ m ∈ s.store, d.targetCursor = m.timestamp
  prevLe : ∀ d ∈ s.active, strLe (optVal d.previousCursor) (cursorVal s d.chatJid) = true
  activeReg : ∀ d ∈ s.active, (lookupGroup s.registeredGroups d.chatJid).isSome = true
  fallback : ∀ d ∈ s.active, pendingFor a s d.chatJid ≠ [] ∨ newFor a s d.chatJid = []

theorem inv_init (a : String) (regs : List (String × RegisteredGroup)) :
    EngineInv a (initState regs) := by
  constructor
  · exact List.Pairwise.nil
  · intro c
    exact Or.inl rfl
  · intro d hd
    cases hd
  · intro d hd
    cases hd
  · intro d hd
    cases hd
  · intro d hd
    cases hd
  · intro d hd
    cases hd

theorem inv_storeMsg {a : String} {s : SysState} {m : NewMessage}
    (hI : EngineInv a s)
    (hgt : ∀ m' ∈ s.store, strLt m'.timestamp m.timestamp = true)
    (hpos : strLt "" m.timestamp = true) :
    EngineInv a { s with store := s.store ++ [m] } := by
  have hcur : ∀ c, strLt (cursorVal s c) m.timestamp = true := by
    intro c
    rcases hI.cursorBound c with h | ⟨m', hm', he⟩
    · unfold cursorVal optVal
      rw [h]
      exact hpos
    · unfold cursorVal optVal
      rw [he]
      exact hgt m' hm'
  constructor
  · refine List.pairwise_append.mpr ⟨hI.wf, List.pairwise_singleton .., ?_⟩
    intro m1 h1 m2 h2
    rw [List.mem_singleton] at h2
    subst h2
    exact hgt m1 h1
  · intro c
    rcases hI.cursorBound c with h | ⟨m', hm', he⟩
    · exact Or.inl h
    · exact Or.inr ⟨m', List.mem_append_left _ hm', he⟩
  · intro d hd
    rcases hI.prevBound d hd with h | ⟨m', hm', he⟩
    · exact Or.inl h
    · exact Or.inr ⟨m', List.mem_append_left _ hm', he⟩
  · intro d hd
    obtain ⟨m', hm', he⟩ := hI.targetBound d hd
    exact ⟨m', List.mem_append_left _ hm', he⟩
  · intro d hd
    exact hI.prevLe d hd
  · intro d hd
    exact hI.activeReg d hd
  · intro d hd
    by_cases hq : (m.chat_jid == d.chatJid && m.sender_name != a) = true
    · left
      have h1 : (m.chat_jid == d.chatJid) = true := (Bool.and_eq_true_iff.mp hq).1
      have h2 : (m.sender_name != a) = true := (Bool.and_eq_true_iff.mp hq).2
      have hmem : m ∈ pendingFor a { s with store := s.store ++ [m] } d.chatJid := by
        unfold pendingFor
        show m ∈ getMessagesSince (s.store ++ [m]) d.chatJid
          (cursorVal { s with store := s.store ++ [m] } d.chatJid) a
        have hcv : cursorVal { s with store := s.store ++ [m] } d.chatJid =
            cursorVal s d.chatJid := rfl
        rw [hcv]
        exact getMessagesSince_mem_of (List.mem_append_right _ (List.mem_singleton.mpr rfl))
          (eq_of_beq h1) (hcur d.chatJid) (by simpa using h2)
      exact fun hnil => by rw [hnil] at hmem; exact List.not_mem_nil m hmem
    · rcases hI.fallback d hd with hp | hn
      · left
        unfold pendingFor at hp ⊢
        have hcv : cursorVal { s with store := s.store ++ [m] } d.chatJid =
            cursorVal s d.chatJid := rfl
        rw [hcv, getMessagesSince_append]
        intro hnil
        rcases List.append_eq_nil.mp hnil with ⟨h1, -⟩
        exact hp h1
      · right
        unfold newFor at hn ⊢
        show getMessagesSince (s.store ++ [m]) d.chatJid s.lastTimestamp a = []
        rw [getMessagesSince_append, hn]
        have : (m.chat_jid == d.chatJid && strLt s.lastTimestamp m.timestamp &&
            m.sender_name != a) = false := by
          cases hb : (m.chat_jid == d.chatJid && strLt s.lastTimestamp m.timestamp &&
              m.sender_name != a)
          · rfl
          · exfalso
            apply hq
            have h1 := Bool.and_eq_true_iff.mp hb
            have h2 := Bool.and_eq_true_iff.mp h1.1
            exact Bool.and_eq_true_iff.mpr ⟨h2.1, h1.2⟩
        rw [this]
        rfl

theorem mem_active_filter {act : List Dispatch} {c : String} {d' : Dispatch}
    (h : d' ∈ act.filter (fun x => x.chatJid != c)) :
    d' ∈ act ∧ d'.chatJid ≠ c := by
  have hm := List.mem_filter.mp h
  exact ⟨hm.1, by simpa using hm.2⟩

theorem inv_beginDispatch {a : String} {s : SysState} {c : String}
    {g : RegisteredGroup} (hI : EngineInv a s)
    (hg : lookupGroup s.registeredGroups c = some g)
    (hne : pendingFor a s c ≠ []) :
    EngineInv a { s with active := s.active ++
      [⟨c, s.lastAgentTimestamp c, lastTs (pendingFor a s c)⟩] } := by
  obtain ⟨mlast, hsome, hmem, hts⟩ := lastTs_spec hne
  have hmst := (mem_getMessagesSince hmem).1
  constructor
  · exact hI.wf
  · exact hI.cursorBound
  · intro d hd
    rcases List.mem_append.mp hd with hd' | hd'
    · exact hI.prevBound d hd'
    · rw [List.mem_singleton] at hd'
      subst hd'
      exact hI.cursorBound c
  · intro d hd
    rcases List.mem_append.mp hd with hd' | hd'
    · exact hI.targetBound d hd'
    · rw [List.mem_singleton] at hd'
      subst hd'
      exact ⟨mlast, hmst, hts⟩
  · intro d hd
    rcases List.mem_append.mp hd with hd' | hd'
    · exact hI.prevLe d hd'
    · rw [List.mem_singleton] at hd'
      subst hd'
      exact strLe_refl _
  · intro d hd
    rcases List.mem_append.mp hd with hd' | hd'
    · exact hI.activeReg d hd'
    · rw [List.mem_singleton] at hd'
      subst hd'
      rw [hg]
      rfl
  · intro d hd
    rcases List.mem_append.mp hd with hd' | hd'
    · exact hI.fallback d hd'
    · rw [List.mem_singleton] at hd'
      subst hd'
      exact Or.inl hne

theorem inv_resolved {a : String} {s : SysState} {c : String} {v : Option String}
    (hI : EngineInv a s)
    (hv : v = none ∨ ∃ m ∈ s.store, v = some m.timestamp) :
    EngineInv a { s with
      lastAgentTimestamp := updateCur s.lastAgentTimestamp c v
      active := s.active.filter (fun d' => d'.chatJid != c) } := by
  constructor
  · exact hI.wf
  · intro x
    by_cases hx : x = c
    · subst hx
      rcases hv with hv | ⟨m, hm, hv⟩
      · left
        show updateCur s.lastAgentTimestamp x v x = none
        rw [updateCur_self]
        exact hv
      · right
        refine ⟨m, hm, ?_⟩
        show updateCur s.lastAgentTimestamp x v x = some m.timestamp
        rw [updateCur_self]
        exact hv
    · rcases hI.cursorBound x with h | ⟨m, hm, he⟩
      · left
        show updateCur s.lastAgentTimestamp c v x = none
        rw [updateCur_ne hx]
        exact h
      · right
        refine ⟨m, hm, ?_⟩
        show updateCur s.lastAgentTimestamp c v x = some m.timestamp
        rw [updateCur_ne hx]
        exact he
  · intro d hd
    exact hI.prevBound d (mem_active_filter hd).1
  · intro d hd
    exact hI.targetBound d (mem_active_filter hd).1
  · intro d hd
    obtain ⟨hd', hne⟩ := mem_active_filter hd
    have : cursorVal { s with
        lastAgentTimestamp := updateCur s.lastAgentTimestamp c v
        active := s.active.filter (fun d' => d'.chatJid != c) } d.chatJid =
        cursorVal s d.chatJid := by
      unfold cursorVal
      show optVal (updateCur s.lastAgentTimestamp c v d.chatJid) = _
      rw [updateCur_ne hne]
    rw [this]
    exact hI.prevLe d hd'
  · intro d hd
    exact hI.activeReg d (mem_active_filter hd).1
  · intro d hd
    obtain ⟨hd', hne⟩ := mem_active_filter hd
    rcases hI.fallback d hd' with hp | hn
    · left
      unfold pendingFor at hp ⊢
      have : cursorVal { s with
          lastAgentTimestamp := updateCur s.lastAgentTimestamp c v
          active := s.active.filter (fun d' => d'.chatJid != c) } d.chatJid =
          cursorVal s d.chatJid := by
        unfold cursorVal
        show optVal (updateCur s.lastAgentTimestamp c v d.chatJid) = _
        rw [updateCur_ne hne]
      rw [this]
      exact hp
    · exact Or.inr hn

theorem inv_resolveFailAfterOutput {a : String} {s : SysState} {c : String}
    (hI : EngineInv a s) :
    EngineInv a { s with active := s.active.filter (fun d' => d'.chatJid != c) } := by
  constructor
  · exact hI.wf
  · exact hI.cursorBound
  · intro d hd
    exact hI.prevBound d (mem_active_filter hd).1
  · intro d hd
    exact hI.targetBound d (mem_active_filter hd).1
  · intro d hd
    exact hI.prevLe d (mem_active_filter hd).1
  · intro d hd
    exact hI.activeReg d (mem_active_filter hd).1
  · intro d hd
    exact hI.fallback d (mem_active_filter hd).1

theorem inv_syncCmd {a : String} {s : SysState} {c : String}
    (hI : EngineInv a s) (hact : hasActive s c = false)
    (hne : pendingFor a s c ≠ []) :
    EngineInv a { s with lastAgentTimestamp := updateCur s.lastAgentTimestamp c (some (lastTs (pendingFor a s c))) } := by
  obtain ⟨mlast, hsome, hmem, hts⟩ := lastTs_spec hne
  have hmst := (mem_getMessagesSince hmem).1
  constructor
  · exact hI.wf
  · intro x
    by_cases hx : x = c
    · subst hx
      right
      refine ⟨mlast, hmst, ?_⟩
      show updateCur s.lastAgentTimestamp x (some (lastTs (pendingFor a s x))) x = some mlast.timestamp
      rw [updateCur_self, hts]
    · rcases hI.cursorBound x with h | ⟨m, hm, he⟩
      · left
        show updateCur s.lastAgentTimestamp c (some (lastTs (pendingFor a s c))) x = none
        rw [updateCur_ne hx]
        exact h
      · right
        refine ⟨m, hm, ?_⟩
        show updateCur s.lastAgentTimestamp c (some (lastTs (pendingFor a s c))) x = some m.timestamp
        rw [updateCur_ne hx]
        exact he
  · intro d hd
    exact hI.prevBound d hd
  · intro d hd
    exact hI.targetBound d hd
  · intro d hd
    have hne' : d.chatJid ≠ c := hasActive_false hact hd
    have hcv : cursorVal { s with lastAgentTimestamp := updateCur s.lastAgentTimestamp c (some (lastTs (pendingFor a s c))) } d.chatJid = cursorVal s d.chatJid := by
      unfold cursorVal
      show optVal (updateCur s.lastAgentTimestamp c (some (lastTs (pendingFor a s c))) d.chatJid) = optVal (s.lastAgentTimestamp d.chatJid)
      rw [updateCur_ne hne']
    rw [hcv]
    exact hI.prevLe d hd
  · intro d hd
    exact hI.activeReg d hd
  · intro d hd
    have hne' : d.chatJid ≠ c := hasActive_false hact hd
    rcases hI.fallback d hd with hp | hn
    · left
      unfold pendingFor at hp ⊢
      have hcv : cursorVal { s with lastAgentTimestamp := updateCur s.lastAgentTimestamp c (some (lastTs (pendingFor a s c))) } d.chatJid = cursorVal s d.chatJid := by
        unfold cursorVal
        show optVal (updateCur s.lastAgentTimestamp c (some (lastTs (pendingFor a s c))) d.chatJid) = optVal (s.lastAgentTimestamp d.chatJid)
        rw [updateCur_ne hne']
      rw [← hcv] at hp
      exact hp
    · exact Or.inr hn

theorem inv_registerStep {a : String} {s : SysState} {jid : String}
    {g : RegisteredGroup} (hI : EngineInv a s) :
    EngineInv a { s with registeredGroups := setRegistered s.registeredGroups jid g } := by
  constructor
  · exact hI.wf
  · exact hI.cursorBound
  · intro d hd
    exact hI.prevBound d hd
  · intro d hd
    exact hI.targetBound d hd
  · intro d hd
    exact hI.prevLe d hd
  · intro d hd
    exact setRegistered_isSome_mono (hI.activeReg d hd)
  · intro d hd
    exact hI.fallback d hd

theorem gm_subset_newFor {a : String} {s : SysState} {x : String}
    {gm : List NewMessage} (hp : (x, gm) ∈ groupPairs (pollMsgs a s)) :
    ∀ m ∈ gm, m ∈ newFor a s x := by
  intro m hm
  obtain ⟨hval, -⟩ := groupPairs_mem_val hp
  rw [hval] at hm
  obtain ⟨hmsgs, hchat⟩ := List.mem_filter.mp hm
  obtain ⟨hst, -, hts, hsender⟩ := mem_pollMsgs hmsgs
  exact getMessagesSince_mem_of hst (eq_of_beq hchat) hts hsender

theorem inv_poll {a mf : String} {s : SysState} (hI : EngineInv a s)
    (hne : pollMsgs a s ≠ []) :
    EngineInv a (pollNext a mf s) := by
  obtain ⟨mlast, hsome, hmlast, hnewts⟩ := pollNewTs_spec hne
  have hmlast_lt : strLt s.lastTimestamp mlast.timestamp = true :=
    (mem_pollMsgs hmlast).2.2.1
  have hnd := groupPairs_keys_nodup (pollMsgs a s)
  -- the fallback hypothesis transported to the state with the advanced observe cursor
  have hfb : ∀ p ∈ groupPairs (pollMsgs a s),
      hasActive { s with lastTimestamp := pollNewTs a s } p.1 = true →
      pendingFor a { s with lastTimestamp := pollNewTs a s } p.1 ≠ [] ∨ p.2 = [] := by
    intro p hp hact
    have hact' : hasActive s p.1 = true := hact
    obtain ⟨d, hd, hdc⟩ := hasActive_exists hact'
    rcases hI.fallback d hd with hpend | hnewf
    · left
      rw [hdc] at hpend
      exact hpend
    · right
      rw [hdc] at hnewf
      have hp' : (p.1, p.2) ∈ groupPairs (pollMsgs a s) := by
        cases p
        exact hp
      have hsub := gm_subset_newFor hp'
      rw [hnewf] at hsub
      cases hgm : p.2 with
      | nil => rfl
      | cons q qs =>
        exfalso
        exact List.not_mem_nil q (hsub q (by rw [hgm]; exact List.mem_cons_self ..))
  have hstore : (pollNext a mf s).store = s.store := by
    unfold pollNext
    rw [pollLoop_store]
  have hactive : (pollNext a mf s).active = s.active := by
    unfold pollNext
    rw [pollLoop_active]
  have hregs : (pollNext a mf s).registeredGroups = s.registeredGroups := by
    unfold pollNext
    rw [pollLoop_regs]
  have hlast : (pollNext a mf s).lastTimestamp = pollNewTs a s := by
    unfold pollNext
    rw [pollLoop_lastTimestamp]
  have hcspec := @pollLoop_cursor_spec a mf (groupPairs (pollMsgs a s))
    { s with lastTimestamp := pollNewTs a s } hnd
  constructor
  · rw [hstore]
    exact hI.wf
  · intro x
    rcases hcspec x with h | ⟨gm, hgm, h⟩
    · unfold pollNext
      rw [h]
      rcases hI.cursorBound x with h' | ⟨m, hm, h'⟩
      · exact Or.inl h'
      · refine Or.inr ⟨m, ?_, h'⟩
        rw [pollLoop_store]
        exact hm
    · right
      by_cases hpe : (pendingFor a { s with lastTimestamp := pollNewTs a s } x).isEmpty = true
      · -- fallback branch: the piped batch is the observed one
        have hgm_ne := (groupPairs_mem_val hgm).2
        obtain ⟨m, hsome', hmem', hts'⟩ := lastTs_spec hgm_ne
        have hmst : m ∈ s.store := by
          obtain ⟨hval, -⟩ := groupPairs_mem_val hgm
          rw [hval] at hmem'
          exact (mem_pollMsgs (List.mem_filter.mp hmem').1).1
        refine ⟨m, ?_, ?_⟩
        · show m ∈ (pollNext a mf s).store
          rw [hstore]
          exact hmst
        · unfold pollNext
          rw [h]
          unfold pipeTarget
          rw [hpe]
          simp only [if_true]
          rw [hts']
      · have hpend_ne : pendingFor a { s with lastTimestamp := pollNewTs a s } x ≠ [] := by
          intro hnil
          rw [hnil] at hpe
          exact hpe rfl
        obtain ⟨m, hsome', hmem', hts'⟩ := lastTs_spec hpend_ne
        have hmst : m ∈ s.store := (mem_getMessagesSince hmem').1
        refine ⟨m, ?_, ?_⟩
        · show m ∈ (pollNext a mf s).store
          rw [hstore]
          exact hmst
        · unfold pollNext
          rw [h]
          unfold pipeTarget
          have hpe' : (pendingFor a { s with lastTimestamp := pollNewTs a s } x).isEmpty = false := by
            cases hb : (pendingFor a { s with lastTimestamp := pollNewTs a s } x).isEmpty
            · rfl
            · exact absurd hb hpe
          rw [hpe']
          simp only [Bool.false_eq_true, if_false]
          rw [hts']
  · intro d hd
    rw [hactive] at hd
    rcases hI.prevBound d hd with h | ⟨m, hm, h⟩
    · exact Or.inl h
    · refine Or.inr ⟨m, ?_, h⟩
      rw [hstore]
      exact hm
  · intro d hd
    rw [hactive] at hd
    obtain ⟨m, hm, h⟩ := hI.targetBound d hd
    refine ⟨m, ?_, h⟩
    rw [hstore]
    exact hm
  · intro d hd
    rw [hactive] at hd
    have h1 : strLe (optVal d.previousCursor) (cursorVal s d.chatJid) = true :=
      hI.prevLe d hd
    have h2 : strLe (cursorVal { s with lastTimestamp := pollNewTs a s } d.chatJid)
        (cursorVal (pollNext a mf s) d.chatJid) = true := by
      unfold pollNext
      exact pollLoop_mono hnd hfb d.chatJid
    exact strLe_trans h1 h2
  · intro d hd
    rw [hactive] at hd
    rw [hregs]
    exact hI.activeReg d hd
  · intro d hd
    rw [hactive] at hd
    right
    have hkey : d.chatJid ∈ regKeys s :=
      lookup_isSome_mem_keys (hI.activeReg d hd)
    unfold newFor getMessagesSince
    rw [hstore, hlast]
    rw [List.filter_eq_nil_iff]
    intro m hm hb
    simp only [Bool.and_eq_true, beq_iff_eq, bne_iff_ne, ne_eq] at hb
    obtain ⟨⟨hchat, hts⟩, hsender⟩ := hb
    by_cases hold : strLt s.lastTimestamp m.timestamp = true
    · have hmmsgs : m ∈ pollMsgs a s :=
        pollMsgs_mem_of hm (hchat ▸ hkey) hold hsender
      have hle : strLe m.timestamp mlast.timestamp = true :=
        le_getLast_of_sorted (pollMsgs_sorted hI.wf) hmmsgs hsome
      have : strLt (pollNewTs a s) m.timestamp = false := by
        rw [hnewts]
        exact not_strLt_of_le hle
      rw [this] at hts
      exact Bool.false_ne_true hts
    · have hold' : strLt s.lastTimestamp m.timestamp = false := by
        cases hb2 : strLt s.lastTimestamp m.timestamp
        · rfl
        · exact absurd hb2 hold
      have : strLt s.lastTimestamp m.timestamp = true := by
        refine strLt_trans (b := mlast.timestamp) hmlast_lt ?_
        rw [← hnewts]
        exact hts
      rw [hold'] at this
      exact Bool.false_ne_true this

theorem inv_step {a mf : String} {l : StepLabel} {s s' : SysState}
    (hI : EngineInv a s) (hs : Step a mf l s s') : EngineInv a s' := by
  cases hs with
  | storeMsg s m hgt hpos => exact inv_storeMsg hI hgt hpos
  | poll s hne => exact inv_poll hI hne
  | beginDispatch s c g hg hact hne hsync htrig => exact inv_beginDispatch hI hg hne
  | resolveOk s d hd =>
    refine inv_resolved hI ?_
    obtain ⟨m, hm, he⟩ := hI.targetBound d hd
    exact Or.inr ⟨m, hm, by rw [he]⟩
  | resolveFailNoOutput s d hd => exact inv_resolved hI (hI.prevBound d hd)
  | resolveFailAfterOutput s d hd => exact inv_resolveFailAfterOutput hI
  | syncCmd s c g hg hact hne hsync => exact inv_syncCmd hI hact hne
  | registerStep s jid g => exact inv_registerStep hI

theorem inv_reachable {a mf : String} {regs : List (String × RegisteredGroup)}
    {s : SysState} (h : Reachable a mf (initState regs) s) : EngineInv a s := by
  induction h with
  | refl => exact inv_init a regs
  | tail hsteps hstep ih =>
    obtain ⟨l, hl⟩ := hstep
    exact inv_step ih hl

/-- C5 (amended): in every reachable state, each conversation's
`lastAgentTimestamp` is unset or equals the timestamp of some stored
message — it is bounded by the largest stored timestamp.  (The claimed
bound by the observe cursor `lastTimestamp` fails transiently, see the
counterexample.) -/
theorem C5_cursor_bounded_by_store
    (a mf : String) (regs : List (String × RegisteredGroup)) (s : SysState)
    (h : Reachable a mf (initState regs) s) :
    ∀ c, s.lastAgentTimestamp c = none ∨
      ∃ m ∈ s.store, s.lastAgentTimestamp c = some m.timestamp :=
  (inv_reachable h).cursorBound

/-- C3 (amended): across reachable transitions, a conversation's
`lastAgentTimestamp` strictly increases only on a polling-loop iteration
(pipe into an active container), a successful dispatch resolution for
that conversation, or the direct `!sync` command; in particular a
failure resolution never increases it. -/
theorem C3_cursor_increase_only_by_poll_resolve_sync
    (a mf : String) (regs : List (String × RegisteredGroup))
    (l : StepLabel) (s s' : SysState) (c : String)
    (hr : Reachable a mf (initState regs) s)
    (hs : Step a mf l s s')
    (hlt : strLt (cursorVal s c) (cursorVal s' c) = true) :
    l = .poll ∨ l = .resolveOk c ∨ l = .syncCmd c := by
  have hI := inv_reachable hr
  cases hs with
  | storeMsg s m hgt hpos =>
    exfalso
    have he : cursorVal { s with store := s.store ++ [m] } c = cursorVal s c := rfl
    rw [he, strLt_irrefl] at hlt
    exact Bool.false_ne_true hlt
  | poll s hne =>
    exact Or.inl rfl
  | beginDispatch s c0 g hg hact hne hsync htrig =>
    exfalso
    have he : cursorVal { s with active := s.active ++
        [⟨c0, s.lastAgentTimestamp c0, lastTs (pendingFor a s c0)⟩] } c = cursorVal s c := rfl
    rw [he, strLt_irrefl] at hlt
    exact Bool.false_ne_true hlt
  | resolveOk s d hd =>
    by_cases hc : d.chatJid = c
    · exact Or.inr (Or.inl (by rw [hc]))
    · exfalso
      have he : cursorVal { s with
          lastAgentTimestamp := updateCur s.lastAgentTimestamp d.chatJid (some d.targetCursor)
          active := s.active.filter (fun d' => d'.chatJid != d.chatJid) } c = cursorVal s c := by
        unfold cursorVal
        show optVal (updateCur s.lastAgentTimestamp d.chatJid (some d.targetCursor) c) = _
        rw [updateCur_ne (fun he => hc he.symm)]
      rw [he, strLt_irrefl] at hlt
      exact Bool.false_ne_true hlt
  | resolveFailNoOutput s d hd =>
    exfalso
    by_cases hc : d.chatJid = c
    · subst hc
      have he : cursorVal { s with
          lastAgentTimestamp := updateCur s.lastAgentTimestamp d.chatJid d.previousCursor
          active := s.active.filter (fun d' => d'.chatJid != d.chatJid) } d.chatJid =
          optVal d.previousCursor := by
        unfold cursorVal
        show optVal (updateCur s.lastAgentTimestamp d.chatJid d.previousCursor d.chatJid) = _
        rw [updateCur_self]
      rw [he] at hlt
      have hle := hI.prevLe d hd
      rw [not_strLt_of_le hle] at hlt
      exact Bool.false_ne_true hlt
    · have he : cursorVal { s with
          lastAgentTimestamp := updateCur s.lastAgentTimestamp d.chatJid d.previousCursor
          active := s.active.filter (fun d' => d'.chatJid != d.chatJid) } c = cursorVal s c := by
        unfold cursorVal
        show optVal (updateCur s.lastAgentTimestamp d.chatJid d.previousCursor c) = _
        rw [updateCur_ne (fun he => hc he.symm)]
      rw [he, strLt_irrefl] at hlt
      exact Bool.false_ne_true hlt
  | resolveFailAfterOutput s d hd =>
    exfalso
    have he : cursorVal { s with
        active := s.active.filter (fun d' => d'.chatJid != d.chatJid) } c = cursorVal s c := rfl
    rw [he, strLt_irrefl] at hlt
    exact Bool.false_ne_true hlt
  | syncCmd s c0 g hg hact hne hsync =>
    by_cases hc : c0 = c
    · exact Or.inr (Or.inr (by rw [hc]))
    · exfalso
      have he : cursorVal { s with lastAgentTimestamp := updateCur s.lastAgentTimestamp c0 (some (lastTs (pendingFor a s c0))) } c = cursorVal s c := by
        unfold cursorVal
        show optVal (updateCur s.lastAgentTimestamp c0 (some (lastTs (pendingFor a s c0))) c) = _
        rw [updateCur_ne (fun he => hc he.symm)]
      rw [he, strLt_irrefl] at hlt
      exact Bool.false_ne_true hlt
  | registerStep s jid g =>
    exfalso
    have he : cursorVal { s with registeredGroups := setRegistered s.registeredGroups jid g } c = cursorVal s c := rfl
    rw [he, strLt_irrefl] at hlt
    exact Bool.false_ne_true hlt

/-! Cursor monotonicity of the polling loop under the invariant, and the
concrete interleaving traces refuting the claimed global properties. -/

theorem poll_mono_of_inv {a mf : String} {s : SysState} (hI : EngineInv a s) :
    ∀ x, strLe (cursorVal s x) (cursorVal (pollNext a mf s) x) = true := by
  intro x
  have hnd := groupPairs_keys_nodup (pollMsgs a s)
  have hfb : ∀ p ∈ groupPairs (pollMsgs a s),
      hasActive { s with lastTimestamp := pollNewTs a s } p.1 = true →
      pendingFor a { s with lastTimestamp := pollNewTs a s } p.1 ≠ [] ∨ p.2 = [] := by
    intro p hp hact
    have hact' : hasActive s p.1 = true := hact
    obtain ⟨d, hd, hdc⟩ := hasActive_exists hact'
    rcases hI.fallback d hd with hpend | hnewf
    · left
      rw [hdc] at hpend
      exact hpend
    · right
      rw [hdc] at hnewf
      have hp' : (p.1, p.2) ∈ groupPairs (pollMsgs a s) := by
        cases p
        exact hp
      have hsub := gm_subset_newFor hp'
      rw [hnewf] at hsub
      cases hgm : p.2 with
      | nil => rfl
      | cons q qs =>
        exfalso
        exact List.not_mem_nil q (hsub q (by rw [hgm]; exact List.mem_cons_self ..))
  exact @pollLoop_mono a mf (groupPairs (pollMsgs a s))
    { s with lastTimestamp := pollNewTs a s } hnd hfb x

/-- C4 (amended): across every reachable transition, a conversation's
`lastAgentTimestamp` is non-decreasing except at the resolution of a
dispatch for that conversation, which overwrites the cursor with the
value captured at dispatch start: `targetCursor` on success,
`previousCursor` on failure without relayed output.  (Either overwrite
can move the cursor backwards past a concurrent pipe advance of the
polling loop, so the claimed unconditional monotonicity fails, see the
counterexample.) -/
theorem C4_cursor_monotone_except_rollback
    (a mf : String) (regs : List (String × RegisteredGroup))
    (l : StepLabel) (s s' : SysState) (c : String)
    (hr : Reachable a mf (initState regs) s)
    (hs : Step a mf l s s') :
    (l ≠ StepLabel.resolveOk c → l ≠ StepLabel.resolveFailNoOutput c →
      strLe (cursorVal s c) (cursorVal s' c) = true) ∧
    (l = StepLabel.resolveOk c → ∃ d ∈ s.active, d.chatJid = c ∧
      s'.lastAgentTimestamp c = some d.targetCursor) ∧
    (l = StepLabel.resolveFailNoOutput c → ∃ d ∈ s.active, d.chatJid = c ∧
      s'.lastAgentTimestamp c = d.previousCursor) := by
  have hI := inv_reachable hr
  cases hs with
  | storeMsg s m hgt hpos =>
    exact ⟨fun _ _ => strLe_refl _, fun hl => StepLabel.noConfusion hl,
      fun hl => StepLabel.noConfusion hl⟩
  | poll s hne =>
    exact ⟨fun _ _ => poll_mono_of_inv hI c, fun hl => StepLabel.noConfusion hl,
      fun hl => StepLabel.noConfusion hl⟩
  | beginDispatch s c0 g hg hact hne hsync htrig =>
    exact ⟨fun _ _ => strLe_refl _, fun hl => StepLabel.noConfusion hl,
      fun hl => StepLabel.noConfusion hl⟩
  | resolveOk s d hd =>
    refine ⟨fun h1 _ => ?_, fun hl => ?_, fun hl => StepLabel.noConfusion hl⟩
    · have hc : d.chatJid ≠ c := fun he => h1 (by rw [he])
      have he : cursorVal { s with
          lastAgentTimestamp := updateCur s.lastAgentTimestamp d.chatJid (some d.targetCursor)
          active := s.active.filter (fun d' => d'.chatJid != d.chatJid) } c = cursorVal s c := by
        unfold cursorVal
        show optVal (updateCur s.lastAgentTimestamp d.chatJid (some d.targetCursor) c) = _
        rw [updateCur_ne (fun he2 => hc he2.symm)]
      rw [he]
      exact strLe_refl _
    · have hc : d.chatJid = c := by injection hl
      refine ⟨d, hd, hc, ?_⟩
      show updateCur s.lastAgentTimestamp d.chatJid (some d.targetCursor) c = some d.targetCursor
      rw [← hc, updateCur_self]
  | resolveFailNoOutput s d hd =>
    refine ⟨fun _ h2 => ?_, fun hl => StepLabel.noConfusion hl, fun hl => ?_⟩
    · have hc : d.chatJid ≠ c := fun he => h2 (by rw [he])
      have he : cursorVal { s with
          lastAgentTimestamp := updateCur s.lastAgentTimestamp d.chatJid d.previousCursor
          active := s.active.filter (fun d' => d'.chatJid != d.chatJid) } c = cursorVal s c := by
        unfold cursorVal
        show optVal (updateCur s.lastAgentTimestamp d.chatJid d.previousCursor c) = _
        rw [updateCur_ne (fun he2 => hc he2.symm)]
      rw [he]
      exact strLe_refl _
    · have hc : d.chatJid = c := by injection hl
      refine ⟨d, hd, hc, ?_⟩
      show updateCur s.lastAgentTimestamp d.chatJid d.previousCursor c = d.previousCursor
      rw [← hc, updateCur_self]
  | resolveFailAfterOutput s d hd =>
    exact ⟨fun _ _ => strLe_refl _, fun hl => StepLabel.noConfusion hl,
      fun hl => StepLabel.noConfusion hl⟩
  | syncCmd s c0 g hg hact hne hsync =>
    refine ⟨fun _ _ => ?_, fun hl => StepLabel.noConfusion hl,
      fun hl => StepLabel.noConfusion hl⟩
    by_cases hc : c0 = c
    · subst hc
      have he : cursorVal { s with lastAgentTimestamp := updateCur s.lastAgentTimestamp c0 (some (lastTs (pendingFor a s c0))) } c0 = lastTs (pendingFor a s c0) := by
        unfold cursorVal
        show optVal (updateCur s.lastAgentTimestamp c0 (some (lastTs (pendingFor a s c0))) c0) = _
        rw [updateCur_self]
        rfl
      rw [he]
      obtain ⟨m, hsome, hmem, hts⟩ := lastTs_spec hne
      rw [hts]
      exact strLe_of_lt (mem_getMessagesSince hmem).2.2.1
    · have he : cursorVal { s with lastAgentTimestamp := updateCur s.lastAgentTimestamp c0 (some (lastTs (pendingFor a s c0))) } c = cursorVal s c := by
        unfold cursorVal
        show optVal (updateCur s.lastAgentTimestamp c0 (some (lastTs (pendingFor a s c0))) c) = _
        rw [updateCur_ne (fun he2 => hc he2.symm)]
      rw [he]
      exact strLe_refl _
  | registerStep s jid g =>
    exact ⟨fun _ _ => strLe_refl _, fun hl => StepLabel.noConfusion hl,
      fun hl => StepLabel.noConfusion hl⟩

/-- A concrete registration used in the interleaving traces: a main-group
conversation, so every batch is processed without a trigger. -/
def exReg : RegisteredGroup := ⟨"Ops", "main", "@andy", none⟩

/-- The registration table of the traces. -/
def exRegs : List (String × RegisteredGroup) := [("chat1", exReg)]

/-- First stored message of the traces. -/
def exM1 : NewMessage := ⟨"id1", "chat1", "alice", "hello there", "t1"⟩

/-- Second stored message of the traces, arriving while a dispatch over
`exM1` is in flight. -/
def exM2 : NewMessage := ⟨"id2", "chat1", "alice", "more context", "t2"⟩

/-- Trace state after storing `exM1`. -/
def exS1 : SysState :=
  { initState exRegs with store := (initState exRegs).store ++ [exM1] }

/-- The in-flight dispatch over the batch `[exM1]`: captured
`previousCursor = none`, `targetCursor = "t1"`. -/
def exD1 : Dispatch :=
  ⟨"chat1", exS1.lastAgentTimestamp "chat1", lastTs (pendingFor "Andy" exS1 "chat1")⟩

/-- Trace state after the dispatch over `[exM1]` starts. -/
def exS2 : SysState := { exS1 with active := exS1.active ++ [exD1] }

/-- Trace state after `exM2` is stored while the dispatch is running. -/
def exS3 : SysState := { exS2 with store := exS2.store ++ [exM2] }

/-- Trace state after one polling iteration: the loop pipes the pending
batch into the active container and advances the agent cursor to `"t2"`
before the dispatch outcome is known. -/
def exS4 : SysState := pollNext "Andy" "main" exS3

/-- Trace state after the in-flight dispatch resolves as failed without
relayed output: the cursor is overwritten with the captured
`previousCursor = none`, clobbering the concurrent pipe advance. -/
def exS5 : SysState := { exS4 with
  lastAgentTimestamp := updateCur exS4.lastAgentTimestamp exD1.chatJid exD1.previousCursor
  active := exS4.active.filter (fun d' => d'.chatJid != exD1.chatJid) }

/-- Trace state of the shorter success trace: from `exS2` the dispatch
resolves successfully, advancing the agent cursor to `"t1"` while the
polling loop has never run (`lastTimestamp` is still `""`). -/
def exT3 : SysState := { exS2 with
  lastAgentTimestamp := updateCur exS2.lastAgentTimestamp exD1.chatJid (some exD1.targetCursor)
  active := exS2.active.filter (fun d' => d'.chatJid != exD1.chatJid) }

theorem exStep01 : Step "Andy" "main" (.storeMsg exM1) (initState exRegs) exS1 :=
  Step.storeMsg (initState exRegs) exM1
    (fun m' hm' => absurd hm' (List.not_mem_nil m')) (by decide)

theorem exStep12 : Step "Andy" "main" (.beginDispatch "chat1") exS1 exS2 :=
  Step.beginDispatch exS1 "chat1" exReg (by decide) (by decide) (by decide)
    (by decide) (Or.inl rfl)

theorem exStep23 : Step "Andy" "main" (.storeMsg exM2) exS2 exS3 :=
  Step.storeMsg exS2 exM2
    (by
      intro m' hm'
      have hm2 : m' ∈ [exM1] := hm'
      rw [List.mem_singleton] at hm2
      subst hm2
      decide)
    (by decide)

theorem exStep34 : Step "Andy" "main" StepLabel.poll exS3 exS4 :=
  Step.poll exS3 (by decide)

theorem exStep45 : Step "Andy" "main" (.resolveFailNoOutput "chat1") exS4 exS5 :=
  Step.resolveFailNoOutput exS4 exD1 (by decide)

theorem exStepT : Step "Andy" "main" (.resolveOk "chat1") exS2 exT3 :=
  Step.resolveOk exS2 exD1 (by decide)

theorem exReach1 : Reachable "Andy" "main" (initState exRegs) exS1 :=
  Relation.ReflTransGen.single ⟨_, exStep01⟩

theorem exReach2 : Reachable "Andy" "main" (initState exRegs) exS2 :=
  exReach1.tail ⟨_, exStep12⟩

theorem exReach3 : Reachable "Andy" "main" (initState exRegs) exS3 :=
  exReach2.tail ⟨_, exStep23⟩

theorem exReach4 : Reachable "Andy" "main" (initState exRegs) exS4 :=
  exReach3.tail ⟨_, exStep34⟩

theorem exReachT : Reachable "Andy" "main" (initState exRegs) exT3 :=
  exReach2.tail ⟨_, exStepT⟩

/-- C3 exhibit: a reachable polling transition — not the resolution of
any agent invocation — strictly increases `lastAgentTimestamp["chat1"]`
(from `""` to `"t2"`) by piping the pending batch into the still-running
container, before the invocation's outcome is known (`index.ts` lines
907-915). -/
theorem C3_counterexample_pipe_advances_cursor :
    Reachable "Andy" "main" (initState exRegs) exS3 ∧
    Step "Andy" "main" StepLabel.poll exS3 exS4 ∧
    hasActive exS3 "chat1" = true ∧
    strLt (cursorVal exS3 "chat1") (cursorVal exS4 "chat1") = true :=
  ⟨exReach3, exStep34, by decide, by decide⟩

/-- C4 exhibit: a reachable failure-without-output resolution strictly
decreases `lastAgentTimestamp["chat1"]` (from `"t2"` back to `""`): the
rollback to the captured `previousCursor` clobbers the concurrent pipe
advance of the polling loop, so the cursor is not non-decreasing. -/
theorem C4_counterexample_rollback_decreases_cursor :
    Reachable "Andy" "main" (initState exRegs) exS4 ∧
    Step "Andy" "main" (StepLabel.resolveFailNoOutput "chat1") exS4 exS5 ∧
    strLe (cursorVal exS4 "chat1") (cursorVal exS5 "chat1") = false :=
  ⟨exReach4, exStep45, by decide⟩

/-- C5 exhibit: a reachable state in which the agent cursor has
overtaken the observe cursor — the dispatch resolved successfully and
set `lastAgentTimestamp["chat1"] = "t1"` while the polling loop has not
yet run, so `lastTimestamp` is still `""`. -/
theorem C5_counterexample_cursor_overtakes_observe :
    Reachable "Andy" "main" (initState exRegs) exT3 ∧
    strLe (cursorVal exT3 "chat1") exT3.lastTimestamp = false :=
  ⟨exReachT, by decide⟩

/-- Witness for C3 (amended) at the polling transition of the concrete
trace, whose cursor increase is classified as a poll. -/
theorem C3_cursor_increase_only_by_poll_resolve_sync_witness :
    StepLabel.poll = StepLabel.poll ∨
      StepLabel.poll = StepLabel.resolveOk "chat1" ∨
      StepLabel.poll = StepLabel.syncCmd "chat1" :=
  C3_cursor_increase_only_by_poll_resolve_sync "Andy" "main" exRegs
    StepLabel.poll exS3 exS4 "chat1" exReach3 exStep34 (by decide)

/-- Witness for C4 (amended) at the failure resolution of the concrete
trace: the step writes back exactly the captured `previousCursor`. -/
theorem C4_cursor_monotone_except_rollback_witness :
    (StepLabel.resolveFailNoOutput "chat1" ≠ StepLabel.resolveOk "chat1" →
      StepLabel.resolveFailNoOutput "chat1" ≠ StepLabel.resolveFailNoOutput "chat1" →
      strLe (cursorVal exS4 "chat1") (cursorVal exS5 "chat1") = true) ∧
    (StepLabel.resolveFailNoOutput "chat1" = StepLabel.resolveOk "chat1" →
      ∃ d ∈ exS4.active, d.chatJid = "chat1" ∧
        exS5.lastAgentTimestamp "chat1" = some d.targetCursor) ∧
    (StepLabel.resolveFailNoOutput "chat1" = StepLabel.resolveFailNoOutput "chat1" →
      ∃ d ∈ exS4.active, d.chatJid = "chat1" ∧
        exS5.lastAgentTimestamp "chat1" = d.previousCursor) :=
  C4_cursor_monotone_except_rollback "Andy" "main" exRegs
    (StepLabel.resolveFailNoOutput "chat1") exS4 exS5 "chat1" exReach4 exStep45

/-- Witness for C5 (amended) at the success-trace state: the cursor of
`"chat1"` equals the timestamp of a stored message. -/
theorem C5_cursor_bounded_by_store_witness :
    exT3.lastAgentTimestamp "chat1" = none ∨
      ∃ m ∈ exT3.store, exT3.lastAgentTimestamp "chat1" = some m.timestamp :=
  C5_cursor_bounded_by_store "Andy" "main" exRegs exT3 exReachT "chat1"

/-- C6 exhibit: the `!sync` interception of `processGroupMessages`
(`index.ts` lines 205-213) runs before the trigger check, so the claim
fails on batches whose last message trims to `"!sync"`.  First half: for
the batch `[m1 (no trigger), m2 (trigger), m3 = "!sync"]` of a
trigger-requiring conversation no dispatch occurs (the command branch
answers it directly and advances the cursor), where the claim requires
exactly one dispatch covering all three messages.  Second half: for the
all-non-trigger batch `["!sync"]` the cursor advances past the batch,
where the claim requires the messages to be retained. -/
theorem C6_counterexample_sync_preempts_trigger :
    getMessagesSince
      [⟨"i1", "c1", "alice", "hello", "t1"⟩, ⟨"i2", "c1", "bob", "@bot what is up", "t2"⟩,
        ⟨"i3", "c1", "alice", "!sync", "t3"⟩] "c1" (optVal none) "Andy" =
      [⟨"i1", "c1", "alice", "hello", "t1"⟩, ⟨"i2", "c1", "bob", "@bot what is up", "t2"⟩,
        ⟨"i3", "c1", "alice", "!sync", "t3"⟩] ∧
    matchesTrigger "@bot" "hello" = false ∧
    matchesTrigger "@bot" "@bot what is up" = true ∧
    matchesTrigger "@bot" "!sync" = false ∧
    (processGroupMessages "Andy" "main" [("c1", ⟨"g", "f", "@bot", none⟩)]
        [⟨"i1", "c1", "alice", "hello", "t1"⟩, ⟨"i2", "c1", "bob", "@bot what is up", "t2"⟩,
          ⟨"i3", "c1", "alice", "!sync", "t3"⟩]
        (fun _ => none) "c1" ⟨[], "success"⟩).dispatchCount = 0 ∧
    (processGroupMessages "Andy" "main" [("c1", ⟨"g", "f", "@bot", none⟩)]
        [⟨"i1", "c1", "alice", "hello", "t1"⟩, ⟨"i2", "c1", "bob", "@bot what is up", "t2"⟩,
          ⟨"i3", "c1", "alice", "!sync", "t3"⟩]
        (fun _ => none) "c1" ⟨[], "success"⟩).prompt = none ∧
    (processGroupMessages "Andy" "main" [("c1", ⟨"g", "f", "@bot", none⟩)]
        [⟨"i1", "c1", "alice", "hello", "t1"⟩, ⟨"i2", "c1", "bob", "@bot what is up", "t2"⟩,
          ⟨"i3", "c1", "alice", "!sync", "t3"⟩]
        (fun _ => none) "c1" ⟨[], "success"⟩).lastAgentTimestamp "c1" = some "t3" ∧
    getMessagesSince [⟨"i1", "c1", "alice", "!sync", "t1"⟩] "c1" (optVal none) "Andy" =
      [⟨"i1", "c1", "alice", "!sync", "t1"⟩] ∧
    (processGroupMessages "Andy" "main" [("c1", ⟨"g", "f", "@bot", none⟩)]
        [⟨"i1", "c1", "alice", "!sync", "t1"⟩]
        (fun _ => none) "c1" ⟨[], "success"⟩).dispatchCount = 0 ∧
    (processGroupMessages "Andy" "main" [("c1", ⟨"g", "f", "@bot", none⟩)]
        [⟨"i1", "c1", "alice", "!sync", "t1"⟩]
        (fun _ => none) "c1" ⟨[], "success"⟩).lastAgentTimestamp "c1" = some "t1" := by
  refine ⟨by decide, by decide, by decide, by decide, by decide, by decide, by decide,
    by decide, by decide, by decide⟩
